import Mathlib

/-!
Verification of the core of the container-image copy engine (package `copy`,
file `copy/copy.go`) against its natural-language specification.

The Go code is shallowly embedded: the control flow of the functions in
`copy/copy.go` is translated into executable Lean definitions, while the
external collaborators (the source backend, the destination backend, the
manifest parsers, the compression and digest libraries, the policy engine)
are modelled as oracle fields of a `World` structure, since their code is
not part of the file under verification.  Blob streams are abstracted: the
per-blob behaviour of the stream stages (compression detection, the diffID
side task, the sticky validation flag observed after an upload) is given by
a per-digest oracle `World.blob`.  Observable interactions with the
destination are recorded in an event trace so that statements such as
"no manifest is stored" or "the blob is not fetched" can be expressed.
-/

set_option autoImplicit false

namespace ImageCopy

/-- Blob and manifest contents are byte strings, modelled as lists of naturals. -/
abbrev Bytes := List Nat

/-- A digest is an `algorithm:hex` content identifier; equality is bytewise. -/
abbrev Digest := String

/-- Error values.  `errorMsg` models `errors.Errorf` / `errors.New` / `fmt.Errorf`
(a base error that is just its message); `manifestRejected` models the tagged
`types.ManifestTypeRejectedError`; `digestMismatch` models the mismatch error
built by `digestingReader.Read` (carrying the expected and the actual digest
that appear in its message); `wrap` models `errors.Wrap`/`errors.Wrapf` on a
non-nil error (wrapping `nil` yields `nil` and is modelled at the call sites). -/
inductive Err where
  | errorMsg (msg : String)
  | manifestRejected (msg : String)
  | digestMismatch (expected actual : Digest)
  | wrap (msg : String) (cause : Err)
deriving DecidableEq, Repr

/-- Rendering an error to its message, following `pkg/errors`: a wrapped error
prints as `msg: cause`. -/
def Err.render : Err → String
  | .errorMsg m => m
  | .manifestRejected m => m
  | .digestMismatch e a => "Digest did not match, expected " ++ e ++ ", got " ++ a
  | .wrap m c => m ++ ": " ++ Err.render c

/-- The root cause of an error, following `errors.Cause`: unwrap all `wrap` layers. -/
def Err.cause : Err → Err
  | .wrap _ c => Err.cause c
  | e => e

/-- Whether an error is the tagged manifest-rejection error, modelling the type
assertion `errors.Cause(err).(types.ManifestTypeRejectedError)` applied to the cause. -/
def Err.isManifestRejected : Err → Bool
  | .manifestRejected _ => true
  | _ => false

/-- Blob metadata, modelling `types.BlobInfo`: digest, size (`-1` marks unknown),
foreign-layer URLs and a media type. -/
structure BlobInfo where
  digest : Digest
  size : Int
  urls : List String
  mediaType : String
deriving DecidableEq, Repr

/-- Observable interactions with the source and destination backends, recorded
in the order in which the embedded code performs them.  `attemptManifest` marks
the start of one `copyUpdatedConfigAndManifest` attempt in the manifest commit
retry loop. -/
inductive Event where
  | hasBlob (d : Digest)
  | getBlob (d : Digest)
  | compress (d : Digest)
  | putBlob (srcDigest : Digest) (inputInfo : BlobInfo)
  | reapplyBlob (d : Digest)
  | putManifest (bytes : Bytes) (instanceDigest : Option Digest)
  | putSignatures (sigs : List Bytes) (instanceDigest : Option Digest)
  | attemptManifest (mimeType : String)
deriving DecidableEq, Repr

/-- Whether an event is a manifest store. -/
def Event.isPutManifest : Event → Bool
  | .putManifest _ _ => true
  | _ => false

/-- Whether an event is a store of a top-level (non-instance) manifest, i.e. a
`PutManifest` call with a nil instance digest — the call used for a manifest list. -/
def Event.isTopLevelManifestPut : Event → Bool
  | .putManifest _ none => true
  | _ => false

/-- Whether an event marks a commit attempt of the manifest retry loop. -/
def Event.isAttempt : Event → Bool
  | .attemptManifest _ => true
  | _ => false

/-- Number of manifest commit attempts recorded in a trace. -/
def attemptsIn (ev : List Event) : Nat :=
  (ev.filter Event.isAttempt).length

/-! ## Digesting reader (copy.go 28-71) -/

/-- State of a `digestingReader`: the bytes fed to the running digester so far,
the expected digest, and the sticky validation flag.  The wrapped source stream
is not part of the state; each `Read` step receives the chunk the source
returned, together with the source's error disposition. -/
structure DigestingReader where
  hashed : Bytes
  expectedDigest : Digest
  validationFailed : Bool
deriving DecidableEq, Repr

/-- Disposition of one `io.Reader.Read` call: no error, end of input (`io.EOF`),
or a failure. -/
inductive ReadReturn where
  | noErr
  | eof
  | err (e : Err)
deriving DecidableEq, Repr

/-- One step of `digestingReader.Read` (copy.go 53-71).  `hash` is the digest
function of the reader's digester (external library, modelled as an oracle);
`chunk` is the prefix the wrapped source returned (its length is `n`) and
`srcRet` the source's error disposition.  Every returned prefix is fed to the
digester; per the `hash.Hash` contract the digester write never fails, so the
defensive short-write branch of the source is unreachable.  On end of input the
computed digest is compared with the expected one; a mismatch sets the sticky
flag and turns the end of input into an error carrying both digests, with `0`
as the byte count. -/
def digestingReaderRead (hash : Bytes → Digest) (d : DigestingReader)
    (chunk : Bytes) (srcRet : ReadReturn) : DigestingReader × Nat × ReadReturn :=
  let d1 := if chunk.length > 0 then { d with hashed := d.hashed ++ chunk } else d
  match srcRet with
  | .eof =>
    let actualDigest := hash d1.hashed
    if actualDigest ≠ d.expectedDigest then
      ({ d1 with validationFailed := true }, 0,
       .err (.digestMismatch d.expectedDigest actualDigest))
    else (d1, chunk.length, .eof)
  | r => (d1, chunk.length, r)

/-! ## System context and runtime OS check (copy.go 510-528) -/

/-- The part of `types.SystemContext` the copy engine consults. -/
structure SystemContext where
  osChoice : String
deriving DecidableEq, Repr

/-- The wanted OS: `runtime.GOOS`, overridden by a non-empty `ctx.OSChoice`
when a context is supplied. -/
def wantedOSOf (goos : String) (ctx : Option SystemContext) : String :=
  match ctx with
  | some c => if c.osChoice ≠ "" then c.osChoice else goos
  | none => goos

/-! ## Worlds: the external collaborators as oracles -/

/-- Per-blob behaviour of the abstracted stream stages, keyed by the source
digest of the blob: the result of `compression.DetectCompression` on the open
stream (`true` means a known compression framing was detected), the error, if
any, of draining the remainder of the tee branch, the state of the digesting
reader's sticky validation flag after the destination consumed the stream, the
result delivered by the diffID computation side task, and the result of
`rawSource.GetBlob` (the stream itself is abstract; its reported size is kept). -/
structure BlobWorld where
  detectCompression : Except Err Bool
  drainErr : Option Err
  validationFailed : Bool
  diffID : Except Err Digest
  getBlob : Except Err Int

/-- The destination backend (`types.ImageDestination`), as consumed by the copy
engine. -/
structure DestWorld where
  supportedManifestMIMETypes : List String
  acceptsForeignLayerURLs : Bool
  shouldCompressLayers : Bool
  mustMatchRuntimeOS : Bool
  dockerReference : Option String
  hasBlob : BlobInfo → Except Err (Bool × Int)
  reapplyBlob : BlobInfo → Except Err BlobInfo
  putBlob : Digest → BlobInfo → Except Err BlobInfo
  putManifest : Bytes → Option Digest → Except Err Unit
  supportsSignatures : Option Err
  putSignatures : List Bytes → Option Digest → Option Err

/-- Requested manifest modifications, modelling `types.ManifestUpdateOptions`.
The `layerInfos` field distinguishes a nil slice (`none`) from a set slice, as
`reflect.DeepEqual` does; `infoLayerInfos`/`infoLayerDiffIDs` model the
`InformationOnly` part, which does not count as a manifest modification. -/
structure ManifestUpdateOptions where
  layerInfos : Option (List BlobInfo)
  embeddedDockerReference : Option String
  manifestMIMEType : String
  infoLayerInfos : List BlobInfo
  infoLayerDiffIDs : List Digest
deriving DecidableEq, Repr

/-- The zero `ManifestUpdateOptions` value (with empty `InformationOnly`). -/
def ManifestUpdateOptions.empty : ManifestUpdateOptions :=
  ⟨none, none, "", [], []⟩

/-- Whether the updates are trivial apart from `InformationOnly`, modelling
`reflect.DeepEqual(*updates, types.ManifestUpdateOptions{InformationOnly: updates.InformationOnly})`. -/
def ManifestUpdateOptions.onlyInformationOnly (u : ManifestUpdateOptions) : Bool :=
  u.layerInfos == none && u.embeddedDockerReference == none && u.manifestMIMEType == ""

/-- The image whose config and manifest are committed: either the source image
itself or the result of `src.UpdatedImage(updates)`.  Only the members the
commit path consults are modelled: `Manifest()` (just the bytes; the media type
is unused there) and the config accessors. -/
structure PendingImage where
  manifest : Except Err Bytes
  configInfo : BlobInfo
  configBlob : Except Err Bytes

/-- The typed source image (`types.Image`), as consumed by the copy engine.
`updatedImage` models `UpdatedImage`, producing the pending image for a set of
updates; `embeddedRefConflicts` models `EmbeddedDockerReferenceConflicts`. -/
structure SrcImage where
  manifestBytes : Bytes
  manifestType : String
  layerInfos : List BlobInfo
  layerInfosForCopy : Option (List BlobInfo)
  configInfo : BlobInfo
  configBlob : Except Err Bytes
  signatures : Except Err (List Bytes)
  ociConfigOS : Except Err String
  embeddedRefConflicts : String → Bool
  updatedImageNeedsLayerDiffIDs : ManifestUpdateOptions → Bool
  updatedImage : ManifestUpdateOptions → Except Err PendingImage

/-- The source image viewed as the pending image when no updates are needed. -/
def SrcImage.pending (s : SrcImage) : PendingImage :=
  ⟨.ok s.manifestBytes, s.configInfo, s.configBlob⟩

/-- An element of a manifest list, as used for list updates
(`manifest.ListUpdate`: digest, size and media type). -/
structure ListInstance where
  digest : Digest
  size : Int
  mediaType : String
deriving DecidableEq, Repr

/-- Modelled from the spec: a parsed manifest list (the `manifest.List`
implementation is not among the sources at hand) — its instance set and its
media type. -/
structure MList where
  instances : List ListInstance
  mimeType : String
deriving DecidableEq, Repr

/-- An unparsed image handle: its raw manifest, whether its MIME type is a
multi-image type, the policy verdict on it (`IsRunningImageAllowed` returns
both a boolean and an error), and the typed image obtained from it
(`image.FromUnparsedImage`). -/
structure UnparsedImage where
  manifest : Except Err (Bytes × String)
  isMultiImage : Except Err Bool
  policyAllowed : Bool × Option Err
  fromUnparsed : Except Err SrcImage

/-- The world of one copy invocation: the destination backend, the per-blob
stream behaviour, the external digest and manifest libraries, the signer, the
runtime OS, and the unparsed-instance accessor of the raw source. -/
structure World where
  dest : DestWorld
  blob : Digest → BlobWorld
  digestSpecErrMsg : Digest → Option String
  manifestDigest : Bytes → Except Err Digest
  createSignature : Bytes → String → Except Err Bytes
  goos : String
  unparsedInstance : Digest → UnparsedImage
  sourceListSignatures : Except Err (List Bytes)
  listFromBlob : Bytes → String → Except Err MList
  serializeList : MList → Except Err Bytes

/-- The per-image copier state (`imageCopier`): the accumulated manifest
updates, the typed source image, whether diffIDs are needed, and whether the
manifest may be modified (no signatures are carried). -/
structure ImageCopierState where
  manifestUpdates : ManifestUpdateOptions
  src : SrcImage
  diffIDsAreNeeded : Bool
  canModifyManifest : Bool

/-- The cached diffIDs map (`copier.cachedDiffIDs`); a Go map lookup of an
absent key yields the empty digest. -/
def Cache := Digest → Digest

/-- The empty diffID cache. -/
def emptyCache : Cache := fun _ => ""

/-- Insertion into the diffID cache. -/
def cacheInsert (c : Cache) (k v : Digest) : Cache :=
  fun d => if d = k then v else c d

/-- Caller options (`Options`), restricted to the fields the embedded control
flow consults. -/
structure Options where
  removeSignatures : Bool
  signBy : String
  sourceCtx : Option SystemContext
  destinationCtx : Option SystemContext
  forceManifestMIMEType : String
deriving DecidableEq, Repr

/-! ## Runtime OS check (copy.go 510-528) -/

/-- Embeds `checkImageDestinationForCurrentRuntimeOS`: when the destination
must match the runtime OS, parse the image's OCI config and reject a Linux
image on a Windows target or a Windows image on a non-Windows target. -/
def checkImageDestinationForCurrentRuntimeOS (w : World) (ctx : Option SystemContext)
    (src : SrcImage) : Option Err :=
  if w.dest.mustMatchRuntimeOS then
    let wantedOS := wantedOSOf w.goos ctx
    match src.ociConfigOS with
    | .error e => some (.wrap "Error parsing image configuration" e)
    | .ok os =>
      let osErr := Err.errorMsg ("image operating system \"" ++ os ++
        "\" cannot be used on \"" ++ wantedOS ++ "\"")
      if wantedOS = "windows" ∧ os = "linux" then some osErr
      else if wantedOS ≠ "windows" ∧ os = "windows" then some osErr
      else none
  else none

/-! ## Blob pipeline (copy.go 792-894) -/

/-- Upload stage of the blob pipeline: the `PutBlob` call followed by the
post-upload checks of `copyBlobFromStream` — drain the tee remainder when a
diffID recorder was installed, fail if the digesting reader's sticky
validation flag is set, and fail if a fixed-identity blob came back from the
destination under a different digest. -/
def uploadAndCheck (w : World) (srcInfo inputInfo : BlobInfo) (hasDiffIDRecorder : Bool)
    (ev0 : List Event) : Except Err BlobInfo × List Event :=
  let ev := ev0 ++ [Event.putBlob srcInfo.digest inputInfo]
  match w.dest.putBlob srcInfo.digest inputInfo with
  | .error e => (.error (.wrap "Error writing blob" e), ev)
  | .ok uploadedInfo =>
    match (if hasDiffIDRecorder then (w.blob srcInfo.digest).drainErr else none) with
    | some e => (.error (.wrap ("Error reading input blob " ++ srcInfo.digest) e), ev)
    | none =>
      if (w.blob srcInfo.digest).validationFailed then
        (.error (.errorMsg ("Internal error writing blob " ++ srcInfo.digest ++
          ", digest verification failed but was ignored")), ev)
      else if inputInfo.digest != "" && uploadedInfo.digest != inputInfo.digest then
        (.error (.errorMsg ("Internal error writing blob " ++ srcInfo.digest ++
          ", blob with digest " ++ inputInfo.digest ++ " saved with digest " ++
          uploadedInfo.digest)), ev)
      else (.ok uploadedInfo, ev)

/-- Embeds `copyBlobFromStream`: verify the digest specification, detect the
input compression, optionally install the diffID tee branch, compress on the
fly when permitted and desired (presenting a blob of unknown digest and size
to the destination), and upload through `uploadAndCheck`. -/
def copyBlobFromStream (w : World) (srcInfo : BlobInfo) (hasDiffIDRecorder : Bool)
    (canCompress : Bool) : Except Err BlobInfo × List Event :=
  match w.digestSpecErrMsg srcInfo.digest with
  | some msg =>
    (.error (.wrap ("Error preparing to verify blob " ++ srcInfo.digest) (.errorMsg msg)), [])
  | none =>
    match (w.blob srcInfo.digest).detectCompression with
    | .error e => (.error (.wrap ("Error reading blob " ++ srcInfo.digest) e), [])
    | .ok isCompressed =>
      if !canCompress || isCompressed || !w.dest.shouldCompressLayers then
        uploadAndCheck w srcInfo srcInfo hasDiffIDRecorder []
      else
        uploadAndCheck w srcInfo ⟨"", -1, [], ""⟩ hasDiffIDRecorder
          [Event.compress srcInfo.digest]

/-- Embeds `copyLayerFromStream`: the blob pipeline for a layer, with the
diffID recorder installed iff the diffID is needed and with on-the-fly
compression permitted iff the manifest may be modified.  The diffID side task
result is delivered through the per-blob oracle and read by `copyLayer`. -/
def copyLayerFromStream (ic : ImageCopierState) (w : World) (srcInfo : BlobInfo)
    (diffIDIsNeeded : Bool) : Except Err BlobInfo × List Event :=
  copyBlobFromStream w srcInfo diffIDIsNeeded ic.canModifyManifest

/-! ## Layer copier (copy.go 682-731) -/

/-- Embeds `copyLayer`: check for the blob at the destination; when it is
present and no diffID must be computed, verify the size agreement and reapply
the blob instead of fetching it; otherwise fetch the blob from the source and
run it through the layer pipeline, reading the diffID side result and caching
it when it was needed. -/
def copyLayer (ic : ImageCopierState) (w : World) (cache : Cache) (srcInfo : BlobInfo) :
    Except Err (BlobInfo × Digest) × Cache × List Event :=
  match w.dest.hasBlob srcInfo with
  | .error e =>
    (.error (.wrap ("Error checking for blob " ++ srcInfo.digest ++ " at destination") e),
     cache, [Event.hasBlob srcInfo.digest])
  | .ok (haveBlob, extantBlobSize) =>
    let diffIDIsNeeded := ic.diffIDsAreNeeded && (cache srcInfo.digest == "")
    if haveBlob && !diffIDIsNeeded then
      if srcInfo.size != -1 && srcInfo.size != extantBlobSize then
        (.error (.errorMsg ("Error: blob " ++ srcInfo.digest ++
          " is already present, but with size " ++ toString extantBlobSize ++
          " instead of " ++ toString srcInfo.size)), cache, [Event.hasBlob srcInfo.digest])
      else
        match w.dest.reapplyBlob { srcInfo with size := extantBlobSize } with
        | .error e =>
          (.error (.wrap ("Error reapplying blob " ++ srcInfo.digest ++ " at destination") e),
           cache, [Event.hasBlob srcInfo.digest, Event.reapplyBlob srcInfo.digest])
        | .ok blobinfo =>
          (.ok (blobinfo, cache srcInfo.digest), cache,
           [Event.hasBlob srcInfo.digest, Event.reapplyBlob srcInfo.digest])
    else
      match (w.blob srcInfo.digest).getBlob with
      | .error e =>
        (.error (.wrap ("Error reading blob " ++ srcInfo.digest) e), cache,
         [Event.hasBlob srcInfo.digest, Event.getBlob srcInfo.digest])
      | .ok srcBlobSize =>
        match copyLayerFromStream ic w ⟨srcInfo.digest, srcBlobSize, [], ""⟩ diffIDIsNeeded with
        | (.error e, ev) =>
          (.error e, cache, Event.hasBlob srcInfo.digest :: Event.getBlob srcInfo.digest :: ev)
        | (.ok blobInfo, ev) =>
          if diffIDIsNeeded then
            match (w.blob srcInfo.digest).diffID with
            | .error e =>
              (.error (.wrap "Error computing layer DiffID" e), cache,
               Event.hasBlob srcInfo.digest :: Event.getBlob srcInfo.digest :: ev)
            | .ok dg =>
              (.ok (blobInfo, dg), cacheInsert cache srcInfo.digest dg,
               Event.hasBlob srcInfo.digest :: Event.getBlob srcInfo.digest :: ev)
          else
            (.ok (blobInfo, ""), cache,
             Event.hasBlob srcInfo.digest :: Event.getBlob srcInfo.digest :: ev)

/-! ## Layer iteration (copy.go 548-607) -/

/-- Whether the digests in two layer lists differ (`layerDigestsDiffer`),
ignoring sizes and other fields. -/
def layerDigestsDiffer (a b : List BlobInfo) : Bool :=
  a.length != b.length || (a.zip b).any (fun p => p.1.digest != p.2.digest)

/-- The body of the layer loop of `copyLayers` (copy.go 562-582) for one source
layer: a foreign layer (non-empty URL list, destination accepting foreign
layers) is not transferred — needing its diffID is unimplemented, otherwise the
source info is passed through with an empty diffID slot; any other layer goes
through `copyLayer`. -/
def copyLayersStep (ic : ImageCopierState) (w : World) (cache : Cache) (srcLayer : BlobInfo) :
    Except Err (BlobInfo × Digest) × Cache × List Event :=
  if w.dest.acceptsForeignLayerURLs && !srcLayer.urls.isEmpty then
    if ic.diffIDsAreNeeded then
      (.error (.errorMsg "getting DiffID for foreign layers is unimplemented"), cache, [])
    else
      (.ok (srcLayer, ""), cache, [])
  else copyLayer ic w cache srcLayer

/-- The layer loop of `copyLayers`, accumulating destination infos and diffIDs
in source order and threading the diffID cache. -/
def copyLayersLoop (ic : ImageCopierState) (w : World) :
    List BlobInfo → Cache → Except Err (List BlobInfo × List Digest) × Cache × List Event
  | [], cache => (.ok ([], []), cache, [])
  | srcLayer :: rest, cache =>
    match copyLayersStep ic w cache srcLayer with
    | (.error e, c, ev) => (.error e, c, ev)
    | (.ok (destInfo, diffID), c, ev) =>
      match copyLayersLoop ic w rest c with
      | (.error e, c2, ev2) => (.error e, c2, ev ++ ev2)
      | (.ok (destInfos, diffIDs), c2, ev2) =>
        (.ok (destInfo :: destInfos, diffID :: diffIDs), c2, ev ++ ev2)

/-- Embeds `copyLayers`: substitute the layer list reported by
`LayerInfosForCopy` when it differs (which is forbidden unless the manifest may
be modified), copy each layer, record the destination infos in
`InformationOnly` (and the diffIDs when needed), and record a manifest layer
update when the source list was substituted or any digest changed.  Returns
the updated manifest updates. -/
def copyLayers (ic : ImageCopierState) (w : World) (cache : Cache) :
    Except Err ManifestUpdateOptions × Cache × List Event :=
  let srcInfos0 := ic.src.layerInfos
  let updatedSrcInfos := ic.src.layerInfosForCopy
  match ((match updatedSrcInfos with
          | some l => if l ≠ srcInfos0 then
              (if !ic.canModifyManifest then none else some (l, true))
            else some (srcInfos0, false)
          | none => some (srcInfos0, false)) : Option (List BlobInfo × Bool)) with
  | none =>
    (.error (.errorMsg
      "Internal error: copyLayers() needs to use an updated manifest but that was known to be forbidden"),
     cache, [])
  | some (srcInfos, srcInfosUpdated) =>
    match copyLayersLoop ic w srcInfos cache with
    | (.error e, c, ev) => (.error e, c, ev)
    | (.ok (destInfos, diffIDs), c, ev) =>
      let u1 := { ic.manifestUpdates with infoLayerInfos := destInfos }
      let u2 := if ic.diffIDsAreNeeded then { u1 with infoLayerDiffIDs := diffIDs } else u1
      let u3 := if srcInfosUpdated || layerDigestsDiffer srcInfos destInfos then
          { u2 with layerInfos := some destInfos }
        else u2
      (.ok u3, c, ev)

/-! ## Config copy (copy.go 655-673) -/

/-- Embeds `copyConfig`: when the image carries a config blob, read it and send
it through the blob pipeline with compression disabled; a change of digest at
the destination is an internal integrity failure. -/
def copyConfig (w : World) (img : PendingImage) : Option Err × List Event :=
  let srcInfo := img.configInfo
  if srcInfo.digest ≠ "" then
    match img.configBlob with
    | .error e => (some (.wrap ("Error reading config blob " ++ srcInfo.digest) e), [])
    | .ok _ =>
      match copyBlobFromStream w srcInfo false false with
      | (.error e, ev) => (some e, ev)
      | (.ok destInfo, ev) =>
        if destInfo.digest ≠ srcInfo.digest then
          (some (.errorMsg ("Internal error: copying uncompressed config blob " ++
            srcInfo.digest ++ " changed digest to " ++ destInfo.digest)), ev)
        else (none, ev)
  else (none, [])

/-! ## Embedded Docker reference (copy.go 530-546) -/

/-- Embeds `updateEmbeddedDockerReference`: when the destination exposes a
Docker reference that conflicts with the one embedded in the source manifest,
record a rewrite — which is forbidden when the manifest may not be modified. -/
def updateEmbeddedDockerReference (w : World) (ic : ImageCopierState) :
    Except Err ImageCopierState :=
  match w.dest.dockerReference with
  | none => .ok ic
  | some destRef =>
    if !ic.src.embeddedRefConflicts destRef then .ok ic
    else if !ic.canModifyManifest then
      .error (.errorMsg ("Copying a schema1 image with an embedded Docker reference to " ++
        destRef ++
        " would invalidate existing signatures. Explicitly enable signature removal to proceed anyway"))
    else
      .ok { ic with manifestUpdates :=
        { ic.manifestUpdates with embeddedDockerReference := some destRef } }

/-! ## Manifest type negotiation (spec §4.5 step 8) -/

/-- The schema2 manifest media type. -/
def dockerV2Schema2MediaType : String := "application/vnd.docker.distribution.manifest.v2+json"

/-- The OCI image manifest media type. -/
def ociImageManifestMediaType : String := "application/vnd.oci.image.manifest.v1+json"

/-- The signed schema1 manifest media type. -/
def dockerV2Schema1SignedMediaType : String := "application/vnd.docker.distribution.manifest.v1+prettyjws"

/-- The schema2 manifest list media type. -/
def dockerV2ListMediaType : String := "application/vnd.docker.distribution.manifest.list.v2+json"

/-- The OCI image index media type. -/
def ociImageIndexMediaType : String := "application/vnd.oci.image.index.v1+json"

/-- Modelled from the spec: `determineManifestConversion` is not among the
sources at hand; spec §4.5 step 8 defines the negotiation.  A forced media
type is the sole candidate; an empty supported set means any type is
acceptable; a supported source type is preferred unchanged (no conversion);
otherwise a supported type is chosen by the ranked preference
schema2 > OCI image manifest > schema1, the remaining ranked supported types
being the ordered fallbacks.  The chosen type is recorded in
`manifest_updates.manifest_media_type` only when it differs from the source's
type.  Returns the preferred type, the fallback candidates, and the possibly
updated copier state. -/
def determineManifestConversion (ic : ImageCopierState) (destSupported : List String)
    (force : String) : Except Err (String × List String × ImageCopierState) :=
  let srcType := ic.src.manifestType
  let record := fun (t : String) =>
    if t ≠ srcType then
      { ic with manifestUpdates := { ic.manifestUpdates with manifestMIMEType := t } }
    else ic
  if force ≠ "" then .ok (force, [], record force)
  else if destSupported.isEmpty then .ok (srcType, [], ic)
  else
    let ranked := [dockerV2Schema2MediaType, ociImageManifestMediaType,
                   dockerV2Schema1SignedMediaType]
    let rankedSupported := ranked.filter (fun t => destSupported.contains t)
    if destSupported.contains srcType then
      .ok (srcType, rankedSupported.filter (fun t => t ≠ srcType), ic)
    else
      match rankedSupported with
      | [] => .error (.errorMsg "Could not determine a manifest MIME type supported by the destination")
      | preferred :: rest => .ok (preferred, rest, record preferred)

/-! ## Config and manifest commit (copy.go 609-653) -/

/-- The pending-image resolution of `copyUpdatedConfigAndManifest` (copy.go
612-631): the source itself when the updates are trivial, else
`UpdatedImage` — forbidden when the manifest may not be modified, and
unsupported when the conversion would need diffIDs that were not prepared. -/
def pendingImageFor (ic : ImageCopierState) : Except Err PendingImage :=
  if !(ic.manifestUpdates.onlyInformationOnly) then
    if !ic.canModifyManifest then
      .error (.errorMsg
        "Internal error: copy needs an updated manifest but that was known to be forbidden")
    else if !ic.diffIDsAreNeeded &&
        ic.src.updatedImageNeedsLayerDiffIDs ic.manifestUpdates then
      .error (.errorMsg ("Can not convert image to " ++
        ic.manifestUpdates.manifestMIMEType ++
        ", preparing DiffIDs for this case is not supported"))
    else
      match ic.src.updatedImage ic.manifestUpdates with
      | .error e => .error (.wrap "Error creating an updated image manifest" e)
      | .ok pi => .ok pi
  else .ok ic.src.pending

/-- Embeds `copyUpdatedConfigAndManifest`: materialize the pending image
through `pendingImageFor`, copy its config, and store its manifest (under the
recomputed digest when committing a list instance). -/
def copyUpdatedConfigAndManifest (w : World) (ic : ImageCopierState)
    (instanceDigest : Option Digest) : Except Err Bytes × List Event :=
  match pendingImageFor ic with
  | .error e => (.error e, [])
  | .ok pendingImage =>
    match pendingImage.manifest with
    | .error e => (.error (.wrap "Error reading manifest" e), [])
    | .ok man =>
      match copyConfig w pendingImage with
      | (some e, ev) => (.error e, ev)
      | (none, ev) =>
        match (match instanceDigest with
               | some _ =>
                 match w.manifestDigest man with
                 | .error e => Except.error e
                 | .ok tmpDigest => Except.ok (some tmpDigest)
               | none => (.ok none : Except Err (Option Digest))) with
        | .error e => (.error e, ev)
        | .ok instanceDigest2 =>
          match w.dest.putManifest man instanceDigest2 with
          | .error e =>
            (.error (.wrap "Error writing manifest" e),
             ev ++ [Event.putManifest man instanceDigest2])
          | .ok _ =>
            (.ok man, ev ++ [Event.putManifest man instanceDigest2])

/-! ## Manifest commit retry loop (copy.go 443-483) -/

/-- Joins error strings with a comma, as `strings.Join(errs, ", ")`. -/
def joinComma : List String → String
  | [] => ""
  | [s] => s
  | s :: rest => s ++ ", " ++ joinComma rest

/-- The fallback iteration of the manifest commit retry loop (copy.go
464-482): each candidate type is recorded in the updates and attempted; a
failure of any kind appends its message and moves to the next candidate; when
every candidate failed, all accumulated per-type errors are reported together. -/
def tryOtherCandidates (w : World) (ic : ImageCopierState) (targetInstance : Option Digest) :
    List String → List String → Except Err (Bytes × String) × List Event
  | [], errs =>
    (.error (.errorMsg ("Uploading manifest failed, attempted the following formats: " ++
      joinComma errs)), [])
  | t :: rest, errs =>
    let ic2 := { ic with manifestUpdates := { ic.manifestUpdates with manifestMIMEType := t } }
    match copyUpdatedConfigAndManifest w ic2 targetInstance with
    | (.ok man, ev) => (.ok (man, t), Event.attemptManifest t :: ev)
    | (.error e, ev) =>
      let r := tryOtherCandidates w ic targetInstance rest
        (errs ++ [t ++ "(" ++ e.render ++ ")"])
      (r.1, (Event.attemptManifest t :: ev) ++ r.2)

/-- The manifest commit retry loop of `copyOneImage` (copy.go 443-483): try
the preferred type; on a failure that is not classified as a manifest
rejection, or with no fallback candidates, abort with that failure; when the
manifest may not be modified, abort immediately with a combined error; else
iterate the fallback candidates. -/
def commitManifest (w : World) (ic : ImageCopierState) (targetInstance : Option Digest)
    (preferredType : String) (otherCandidates : List String) :
    Except Err (Bytes × String) × List Event :=
  match copyUpdatedConfigAndManifest w ic targetInstance with
  | (.ok man, ev) => (.ok (man, preferredType), Event.attemptManifest preferredType :: ev)
  | (.error err, ev) =>
    let ev0 := Event.attemptManifest preferredType :: ev
    if !(Err.isManifestRejected err.cause) || otherCandidates.isEmpty then
      (.error err, ev0)
    else if !ic.canModifyManifest then
      (.error (.wrap "Writing manifest failed (and converting it is not possible)" err), ev0)
    else
      let r := tryOtherCandidates w ic targetInstance otherCandidates
        [preferredType ++ "(" ++ err.render ++ ")"]
      (r.1, ev0 ++ r.2)

/-! ## Single-image copy (copy.go 366-499) -/

/-- The tail of `copyImage` (copy.go 380-441) from the construction of the
`imageCopier` onward: embedded-reference update, manifest-type negotiation,
layer copy, manifest commit with fallback, signing and signature upload.
Factored out of `copyOneImage` so the phases after the signature checks can be
reasoned about in isolation. -/
def copyOneImageAfterChecks (w : World) (opts : Options) (src : SrcImage)
    (targetInstance : Option Digest) (cache : Cache) (sigs : List Bytes) :
    Except Err (Bytes × String) × Cache × List Event :=
  let ic0 : ImageCopierState :=
    { manifestUpdates := ManifestUpdateOptions.empty, src := src,
      diffIDsAreNeeded := false, canModifyManifest := sigs.length == 0 }
  match updateEmbeddedDockerReference w ic0 with
  | .error e => (.error e, cache, [])
  | .ok ic1 =>
    match determineManifestConversion ic1 w.dest.supportedManifestMIMETypes
        opts.forceManifestMIMEType with
    | .error e => (.error e, cache, [])
    | .ok (preferredType, otherCandidates, ic2) =>
      let ic3 := { ic2 with diffIDsAreNeeded :=
        src.updatedImageNeedsLayerDiffIDs ic2.manifestUpdates }
      match copyLayers ic3 w cache with
      | (.error e, c, ev1) => (.error e, c, ev1)
      | (.ok updates2, c, ev1) =>
        let ic4 := { ic3 with manifestUpdates := updates2 }
        match commitManifest w ic4 targetInstance preferredType otherCandidates with
        | (.error e, ev2) => (.error e, c, ev1 ++ ev2)
        | (.ok (man, retType), ev2) =>
          match (if opts.signBy ≠ "" then
                   match w.createSignature man opts.signBy with
                   | .error e => .error e
                   | .ok newSig => .ok (sigs ++ [newSig])
                 else (.ok sigs : Except Err (List Bytes))) with
          | .error e => (.error e, c, ev1 ++ ev2)
          | .ok sigs2 =>
            match w.dest.putSignatures sigs2 targetInstance with
            | some e =>
              (.error (.wrap "Error writing signatures" e), c,
               ev1 ++ ev2 ++ [Event.putSignatures sigs2 targetInstance])
            | none =>
              (.ok (man, retType), c,
               ev1 ++ ev2 ++ [Event.putSignatures sigs2 targetInstance])

/-- Embeds `copyOneImage`: reject nested manifest lists, consult the policy
(`errors.Wrap` of a nil error is nil, so a policy denial that carries no error
value falls through with a nil error and nil manifest), materialize the typed
source image, check the runtime OS, collect or clear signatures (destination
support required when any are carried), then run `copyOneImageAfterChecks`. -/
def copyOneImage (w : World) (opts : Options) (unparsed : UnparsedImage)
    (targetInstance : Option Digest) (cache : Cache) :
    Except Err (Bytes × String) × Cache × List Event :=
  match unparsed.isMultiImage with
  | .error e =>
    (.error (.wrap "Error determining manifest MIME type for the source image" e), cache, [])
  | .ok true =>
    (.error (.errorMsg
      "Unexpectedly received a manifest list instead of a manifest for a single image"),
     cache, [])
  | .ok false =>
    if !unparsed.policyAllowed.1 || unparsed.policyAllowed.2 ≠ none then
      match unparsed.policyAllowed.2 with
      | some e => (.error (.wrap "Source image rejected" e), cache, [])
      | none => (.ok ([], ""), cache, [])
    else
      match unparsed.fromUnparsed with
      | .error e => (.error (.wrap "Error initializing image from source" e), cache, [])
      | .ok src =>
        match checkImageDestinationForCurrentRuntimeOS w opts.destinationCtx src with
        | some e => (.error e, cache, [])
        | none =>
          match (if opts.removeSignatures then (.ok [] : Except Err (List Bytes))
                 else match src.signatures with
                      | .error e => .error (.wrap "Error reading signatures" e)
                      | .ok s => .ok s) with
          | .error e => (.error e, cache, [])
          | .ok sigs =>
            match (if sigs.length ≠ 0 then
                     match w.dest.supportsSignatures with
                     | some e => some (Err.wrap "Can not copy signatures" e)
                     | none => none
                   else none) with
            | some e => (.error e, cache, [])
            | none => copyOneImageAfterChecks w opts src targetInstance cache sigs

/-! ## Manifest list handling (copy.go 241-364, spec §4.6) -/

/-- Modelled from the spec: `UpdateInstances` of the manifest package is not
among the sources at hand; it replaces the digest, size and media type of each
instance in order, failing when the number of updates does not match. -/
def MList.updateInstances (l : MList) (updates : List ListInstance) : Except Err MList :=
  if updates.length ≠ l.instances.length then
    .error (.errorMsg "Manifest list update count does not match the instance count")
  else .ok { l with instances := updates }

/-- Modelled from the spec: the list-type negotiation (spec §4.6 step 5 mirrors
§4.5 step 8 over the list media types); `determineListConversion` is not among
the sources at hand.  A forced type wins; an empty supported set keeps the
current type; a supported current type is kept; otherwise a supported list type
is chosen by the ranked preference schema2 list > OCI index. -/
def determineListConversion (currentType : String) (destSupported : List String)
    (force : String) : Except Err String :=
  if force ≠ "" then .ok force
  else if destSupported.isEmpty then .ok currentType
  else if destSupported.contains currentType then .ok currentType
  else
    match [dockerV2ListMediaType, ociImageIndexMediaType].filter
        (fun t => destSupported.contains t) with
    | [] => .error (.errorMsg "Could not determine a list MIME type supported by the destination")
    | t :: _ => .ok t

/-- The per-instance loop of `copyMultipleImages` (copy.go 274-295): copy each
instance in list order through `copyOneImage` with the instance digest as the
target instance, and record the digest, size and media type of the manifest
that was actually stored. -/
def copyInstancesLoop (w : World) (opts : Options) :
    List ListInstance → Cache → Except Err (List ListInstance) × Cache × List Event
  | [], cache => (.ok [], cache, [])
  | inst :: rest, cache =>
    match copyOneImage w opts (w.unparsedInstance inst.digest) (some inst.digest) cache with
    | (.error e, c, ev) => (.error e, c, ev)
    | (.ok (updatedManifest, updatedType), c, ev) =>
      match w.manifestDigest updatedManifest with
      | .error e => (.error e, c, ev)
      | .ok md =>
        match copyInstancesLoop w opts rest c with
        | (.error e, c2, ev2) => (.error e, c2, ev ++ ev2)
        | (.ok updates, c2, ev2) =>
          (.ok (ListInstance.mk md (Int.ofNat updatedManifest.length) updatedType :: updates),
           c2, ev ++ ev2)

/-- Embeds `copyMultipleImages`: parse the list, collect or clear the
list-level signatures (destination support required when any are carried),
copy every instance, apply the recorded updates, detect whether the instance
set changed, negotiate the list type and convert when needed (marking the list
modified), refuse a modified list when signatures are carried, serialize the
modified list (or keep the original bytes), store the list manifest, optionally
sign, and store the list signatures. -/
def copyMultipleImages (w : World) (opts : Options) (unparsedToplevel : UnparsedImage)
    (cache : Cache) : Option Err × Cache × List Event :=
  match unparsedToplevel.manifest with
  | .error e => (some (.wrap "Error reading manifest list" e), cache, [])
  | .ok (manifestListBytes, manifestType) =>
    match w.listFromBlob manifestListBytes manifestType with
    | .error e => (some (.wrap "Error parsing manifest list" e), cache, [])
    | .ok list =>
      let originalList := list
      match (if opts.removeSignatures then (.ok [] : Except Err (List Bytes))
             else match w.sourceListSignatures with
                  | .error e => .error (.wrap "Error reading signatures" e)
                  | .ok s => .ok s) with
      | .error e => (some e, cache, [])
      | .ok sigs =>
        match (if sigs.length ≠ 0 then
                 match w.dest.supportsSignatures with
                 | some e => some (Err.wrap "Can not copy signatures" e)
                 | none => none
               else none) with
        | some e => (some e, cache, [])
        | none =>
          match copyInstancesLoop w opts list.instances cache with
          | (.error e, c, ev) => (some e, c, ev)
          | (.ok updates, c, ev) =>
            match MList.updateInstances list updates with
            | .error e => (some (.wrap "Error updating manifest list" e), c, ev)
            | .ok list2 =>
              let listIsModified0 := list2.instances ≠ originalList.instances
              match determineListConversion manifestType
                  w.dest.supportedManifestMIMETypes "" with
              | .error e =>
                (some (.wrap "Error determining manifest list type to write to destination" e),
                 c, ev)
              | .ok selectedType =>
                match (if selectedType ≠ list2.mimeType then
                         if selectedType = dockerV2ListMediaType then
                           .ok ({ list2 with mimeType := selectedType }, true)
                         else if selectedType = ociImageIndexMediaType then
                           .ok ({ list2 with mimeType := selectedType }, true)
                         else
                           .error (.errorMsg ("Error converting manifest list to unknown supported type " ++ selectedType))
                       else (.ok (list2, listIsModified0) : Except Err (MList × Bool))) with
                | .error e => (some e, c, ev)
                | .ok (list3, listIsModified) =>
                  match (if listIsModified then
                           if sigs.length ≠ 0 then
                             .error (.errorMsg
                               "Internal error: copyMultipleImages() needs to use an updated manifest but that was known to be forbidden")
                           else
                             match w.serializeList list3 with
                             | .error e => .error (.wrap "Error encoding updated manifest list" e)
                             | .ok b => .ok b
                         else (.ok manifestListBytes : Except Err Bytes)) with
                  | .error e => (some e, c, ev)
                  | .ok listBytes2 =>
                    match w.dest.putManifest listBytes2 none with
                    | .error e =>
                      (some (.wrap "Error writing manifest list" e), c,
                       ev ++ [Event.putManifest listBytes2 none])
                    | .ok _ =>
                      match (if opts.signBy ≠ "" then
                               match w.createSignature listBytes2 opts.signBy with
                               | .error e => .error e
                               | .ok newSig => .ok (sigs ++ [newSig])
                             else (.ok sigs : Except Err (List Bytes))) with
                      | .error e =>
                        (some e, c, ev ++ [Event.putManifest listBytes2 none])
                      | .ok sigs2 =>
                        match w.dest.putSignatures sigs2 none with
                        | some e =>
                          (some (.wrap "Error writing signatures" e), c,
                           ev ++ [Event.putManifest listBytes2 none,
                                  Event.putSignatures sigs2 none])
                        | none =>
                          (none, c,
                           ev ++ [Event.putManifest listBytes2 none,
                                  Event.putSignatures sigs2 none])

/-! ## Entry teardown (copy.go 123-160) -/

/-- Models `errors.Wrapf` from `pkg/errors`, per its documented contract:
wrapping a nil error yields nil. -/
def errorsWrapf (e : Option Err) (msg : String) : Option Err :=
  match e with
  | none => none
  | some e0 => some (.wrap msg e0)

/-- Embeds the two deferred close handlers of `Image` (copy.go 146-150 and
156-160).  Deferred functions run in reverse registration order, so the
source-close handler runs first, then the destination-close handler; each
wraps the current return error with the close failure when closing fails. -/
def imageDeferredCloses (bodyResult : Option Err) (srcCloseErr destCloseErr : Option Err) :
    Option Err :=
  let afterSrc :=
    match srcCloseErr with
    | some e => errorsWrapf bodyResult (" (src: " ++ e.render ++ ")")
    | none => bodyResult
  match destCloseErr with
  | some e => errorsWrapf afterSrc (" (dest: " ++ e.render ++ ")")
  | none => afterSrc

/-! ## General lemmas about the embedded operations -/

/-- A blob-level event: not a manifest store and not a commit-attempt marker. -/
def blobLevelEvent (e : Event) : Prop :=
  e.isPutManifest = false ∧ e.isAttempt = false ∧ e.isTopLevelManifestPut = false

@[simp] theorem blobLevelEvent_hasBlob (d : Digest) : blobLevelEvent (.hasBlob d) := ⟨rfl, rfl, rfl⟩

@[simp] theorem blobLevelEvent_getBlob (d : Digest) : blobLevelEvent (.getBlob d) := ⟨rfl, rfl, rfl⟩

@[simp] theorem blobLevelEvent_compress (d : Digest) : blobLevelEvent (.compress d) := ⟨rfl, rfl, rfl⟩

@[simp] theorem blobLevelEvent_putBlob (d : Digest) (i : BlobInfo) :
    blobLevelEvent (.putBlob d i) := ⟨rfl, rfl, rfl⟩

@[simp] theorem blobLevelEvent_reapplyBlob (d : Digest) :
    blobLevelEvent (.reapplyBlob d) := ⟨rfl, rfl, rfl⟩

/-- The trace of the upload stage is the initial trace plus the one `PutBlob` call. -/
theorem uploadAndCheck_events (w : World) (s i : BlobInfo) (h : Bool) (ev0 : List Event) :
    (uploadAndCheck w s i h ev0).2 = ev0 ++ [Event.putBlob s.digest i] := by
  unfold uploadAndCheck
  split <;> simp_all
  split <;> simp_all
  split <;> simp_all
  split <;> simp_all

/-- A successful upload returns the destination's blob info for the source digest. -/
theorem uploadAndCheck_ok (w : World) (s i : BlobInfo) (h : Bool) (ev0 : List Event)
    (b : BlobInfo) (hok : (uploadAndCheck w s i h ev0).1 = .ok b) :
    w.dest.putBlob s.digest i = .ok b := by
  unfold uploadAndCheck at hok
  split at hok <;> simp_all
  split at hok <;> simp_all
  split at hok <;> simp_all
  split at hok <;> simp_all

/-- The blob pipeline records only blob-level events. -/
theorem copyBlobFromStream_blob_events (w : World) (s : BlobInfo) (h c : Bool) :
    ∀ ev ∈ (copyBlobFromStream w s h c).2, blobLevelEvent ev := by
  unfold copyBlobFromStream
  split
  · simp
  · split
    · simp
    · split <;> (intro ev hev; rw [uploadAndCheck_events] at hev; simp at hev) <;>
        rcases hev with rfl | rfl <;> simp

/-- Without permission to compress, the pipeline never compresses on the fly. -/
theorem copyBlobFromStream_no_compress (w : World) (s : BlobInfo) (h : Bool) :
    ∀ d, Event.compress d ∉ (copyBlobFromStream w s h false).2 := by
  unfold copyBlobFromStream
  intro d
  split
  · simp
  · split
    · simp
    · rw [if_pos (by simp)]
      rw [uploadAndCheck_events]
      simp

/-- The layer copier records only blob-level events. -/
theorem copyLayer_blob_events (ic : ImageCopierState) (w : World) (cache : Cache)
    (srcInfo : BlobInfo) :
    ∀ ev ∈ (copyLayer ic w cache srcInfo).2.2, blobLevelEvent ev := by
  intro ev hev
  unfold copyLayer at hev
  cases h1 : w.dest.hasBlob srcInfo with
  | error e =>
    simp only [h1] at hev
    simp at hev
    subst hev; simp
  | ok pr =>
    obtain ⟨haveBlob, extant⟩ := pr
    simp only [h1] at hev
    cases hskip : (haveBlob && !(ic.diffIDsAreNeeded && (cache srcInfo.digest == ""))) with
    | true =>
      simp only [hskip] at hev
      simp only [if_true, cond_true, reduceIte] at hev
      cases hsz : (srcInfo.size != -1 && srcInfo.size != extant) with
      | true =>
        simp only [hsz] at hev
        simp at hev
        subst hev; simp
      | false =>
        simp only [hsz] at hev
        cases h2 : w.dest.reapplyBlob { srcInfo with size := extant } with
        | error e =>
          simp only [h2] at hev
          simp at hev
          rcases hev with rfl | rfl <;> simp
        | ok b =>
          simp only [h2] at hev
          simp at hev
          rcases hev with rfl | rfl <;> simp
    | false =>
      simp only [hskip] at hev
      simp only [Bool.false_eq_true, reduceIte] at hev
      cases h2 : (w.blob srcInfo.digest).getBlob with
      | error e =>
        simp only [h2] at hev
        simp at hev
        rcases hev with rfl | rfl <;> simp
      | ok srcBlobSize =>
        simp only [h2] at hev
        rcases h3 : copyLayerFromStream ic w ⟨srcInfo.digest, srcBlobSize, [], ""⟩
            (ic.diffIDsAreNeeded && (cache srcInfo.digest == "")) with ⟨res, ev2⟩
        have h4 : ev ∈ ev2 → blobLevelEvent ev := by
          intro hin
          have h5 : (copyLayerFromStream ic w ⟨srcInfo.digest, srcBlobSize, [], ""⟩
              (ic.diffIDsAreNeeded && (cache srcInfo.digest == ""))).2 = ev2 := by rw [h3]
          rw [← h5] at hin
          exact copyBlobFromStream_blob_events w _ _ _ ev hin
        simp only [h3] at hev
        cases res with
        | error e =>
          simp at hev
          rcases hev with rfl | rfl | hin
          · simp
          · simp
          · exact h4 hin
        | ok blobInfo =>
          cases hdn : (ic.diffIDsAreNeeded && (cache srcInfo.digest == "")) with
          | true =>
            simp only [hdn] at hev
            cases h6 : (w.blob srcInfo.digest).diffID with
            | error e =>
              simp only [h6] at hev
              simp at hev
              rcases hev with rfl | rfl | hin
              · simp
              · simp
              · exact h4 hin
            | ok dg =>
              simp only [h6] at hev
              simp at hev
              rcases hev with rfl | rfl | hin
              · simp
              · simp
              · exact h4 hin
          | false =>
            simp only [hdn] at hev
            simp at hev
            rcases hev with rfl | rfl | hin
            · simp
            · simp
            · exact h4 hin

/-- The layer-loop body records only blob-level events. -/
theorem copyLayersStep_blob_events (ic : ImageCopierState) (w : World) (cache : Cache)
    (srcLayer : BlobInfo) :
    ∀ ev ∈ (copyLayersStep ic w cache srcLayer).2.2, blobLevelEvent ev := by
  unfold copyLayersStep
  split
  · split <;> simp
  · exact copyLayer_blob_events ic w cache srcLayer

/-- The layer loop records only blob-level events. -/
theorem copyLayersLoop_blob_events (ic : ImageCopierState) (w : World) :
    ∀ (ls : List BlobInfo) (cache : Cache),
      ∀ ev ∈ (copyLayersLoop ic w ls cache).2.2, blobLevelEvent ev := by
  intro ls
  induction ls with
  | nil => intro cache ev hev; simp [copyLayersLoop] at hev
  | cons l rest ih =>
    intro cache
    unfold copyLayersLoop
    split
    · rename_i e c ev1 hstep
      have h3 : (copyLayersStep ic w cache l).2.2 = ev1 := by rw [hstep]
      intro ev hev
      rw [← h3] at hev
      exact copyLayersStep_blob_events ic w cache l ev hev
    · rename_i p c ev1 hstep
      have h3 : (copyLayersStep ic w cache l).2.2 = ev1 := by rw [hstep]
      split
      · rename_i e c2 ev2 hloop
        have h4 : (copyLayersLoop ic w rest c).2.2 = ev2 := by rw [hloop]
        intro ev hev
        simp only [List.mem_append] at hev
        rcases hev with hev | hev
        · rw [← h3] at hev
          exact copyLayersStep_blob_events ic w cache l ev hev
        · rw [← h4] at hev
          exact ih c ev hev
      · rename_i q c2 ev2 hloop
        have h4 : (copyLayersLoop ic w rest c).2.2 = ev2 := by rw [hloop]
        intro ev hev
        simp only [List.mem_append] at hev
        rcases hev with hev | hev
        · rw [← h3] at hev
          exact copyLayersStep_blob_events ic w cache l ev hev
        · rw [← h4] at hev
          exact ih c ev hev

/-- The layer phase records only blob-level events: in particular it never
stores a manifest. -/
theorem copyLayers_blob_events (ic : ImageCopierState) (w : World) (cache : Cache) :
    ∀ ev ∈ (copyLayers ic w cache).2.2, blobLevelEvent ev := by
  intro ev hev
  unfold copyLayers at hev
  have hbody : ∀ (srcInfos : List BlobInfo), ev ∈ (copyLayersLoop ic w srcInfos cache).2.2 →
      blobLevelEvent ev := fun s h => copyLayersLoop_blob_events ic w s cache ev h
  cases hlifc : ic.src.layerInfosForCopy with
  | none =>
    simp only [hlifc] at hev
    rcases hloop : copyLayersLoop ic w ic.src.layerInfos cache with ⟨res, c, ev1⟩
    have h3 : (copyLayersLoop ic w ic.src.layerInfos cache).2.2 = ev1 := by rw [hloop]
    simp only [hloop] at hev
    cases res with
    | error e => exact hbody _ (h3.symm ▸ hev)
    | ok q =>
      obtain ⟨destInfos, diffIDs⟩ := q
      simp only [] at hev
      exact hbody _ (h3.symm ▸ hev)
  | some l =>
    simp only [hlifc] at hev
    by_cases heql : l ≠ ic.src.layerInfos
    · rw [if_pos heql] at hev
      cases hcm : ic.canModifyManifest with
      | false => simp [hcm] at hev
      | true =>
        simp only [hcm, Bool.not_true] at hev
        simp only [Bool.false_eq_true, reduceIte] at hev
        rcases hloop : copyLayersLoop ic w l cache with ⟨res, c, ev1⟩
        have h3 : (copyLayersLoop ic w l cache).2.2 = ev1 := by rw [hloop]
        simp only [hloop] at hev
        cases res with
        | error e => exact hbody _ (h3.symm ▸ hev)
        | ok q =>
          obtain ⟨destInfos, diffIDs⟩ := q
          simp only [] at hev
          exact hbody _ (h3.symm ▸ hev)
    · rw [if_neg heql] at hev
      rcases hloop : copyLayersLoop ic w ic.src.layerInfos cache with ⟨res, c, ev1⟩
      have h3 : (copyLayersLoop ic w ic.src.layerInfos cache).2.2 = ev1 := by rw [hloop]
      simp only [hloop] at hev
      cases res with
      | error e => exact hbody _ (h3.symm ▸ hev)
      | ok q =>
        obtain ⟨destInfos, diffIDs⟩ := q
        simp only [] at hev
        exact hbody _ (h3.symm ▸ hev)

/-- The config copy records only blob-level events. -/
theorem copyConfig_blob_events (w : World) (img : PendingImage) :
    ∀ ev ∈ (copyConfig w img).2, blobLevelEvent ev := by
  intro ev hev
  unfold copyConfig at hev
  by_cases hd : img.configInfo.digest = ""
  · simp [hd] at hev
  · cases hcb : img.configBlob with
    | error e => simp [hd, hcb] at hev
    | ok blob =>
      rcases hpipe : copyBlobFromStream w img.configInfo false false with ⟨res, ev1⟩
      have h3 : (copyBlobFromStream w img.configInfo false false).2 = ev1 := by rw [hpipe]
      cases res with
      | error e =>
        simp [hcb, hpipe, hd] at hev
        exact copyBlobFromStream_blob_events w _ _ _ ev (h3.symm ▸ hev)
      | ok destInfo =>
        simp [hcb, hpipe, hd, apply_ite Prod.snd] at hev
        exact copyBlobFromStream_blob_events w _ _ _ ev (h3.symm ▸ hev)

/-- Events of one commit attempt: no attempt markers appear (markers are added
by the retry loop, not by the attempt itself), and when a target instance is
given, every manifest store carries an instance digest. -/
theorem copyUpdatedConfigAndManifest_events (w : World) (ic : ImageCopierState)
    (ti : Option Digest) :
    ∀ ev ∈ (copyUpdatedConfigAndManifest w ic ti).2,
      ev.isAttempt = false ∧ (ti = none ∨ ev.isTopLevelManifestPut = false) := by
  intro ev hev
  unfold copyUpdatedConfigAndManifest at hev
  cases hp : pendingImageFor ic with
  | error e => simp [hp] at hev
  | ok pendingImage =>
    simp only [hp] at hev
    cases hm : pendingImage.manifest with
    | error e => simp [hm] at hev
    | ok man =>
      simp only [hm] at hev
      rcases hcc : copyConfig w pendingImage with ⟨cfgRes, ev1⟩
      have h3 : (copyConfig w pendingImage).2 = ev1 := by rw [hcc]
      have hcfg : ∀ x ∈ ev1, blobLevelEvent x := by
        intro x hx
        exact copyConfig_blob_events w pendingImage x (h3.symm ▸ hx)
      simp only [hcc] at hev
      cases cfgRes with
      | some e =>
        rcases hcfg ev hev with ⟨_, h2, h3'⟩
        exact ⟨h2, Or.inr h3'⟩
      | none =>
        cases ti with
        | none =>
          cases hput : w.dest.putManifest man none with
          | error e =>
            simp only [hput] at hev
            simp at hev
            rcases hev with hev | rfl
            · rcases hcfg ev hev with ⟨_, h2, h3'⟩
              exact ⟨h2, Or.inr h3'⟩
            · exact ⟨rfl, Or.inl rfl⟩
          | ok u =>
            simp only [hput] at hev
            simp at hev
            rcases hev with hev | rfl
            · rcases hcfg ev hev with ⟨_, h2, h3'⟩
              exact ⟨h2, Or.inr h3'⟩
            · exact ⟨rfl, Or.inl rfl⟩
        | some d =>
          cases hmd : w.manifestDigest man with
          | error e =>
            simp only [hmd] at hev
            rcases hcfg ev hev with ⟨_, h2, h3'⟩
            exact ⟨h2, Or.inr h3'⟩
          | ok tmpDigest =>
            simp only [hmd] at hev
            cases hput : w.dest.putManifest man (some tmpDigest) with
            | error e =>
              simp only [hput] at hev
              simp at hev
              rcases hev with hev | rfl
              · rcases hcfg ev hev with ⟨_, h2, h3'⟩
                exact ⟨h2, Or.inr h3'⟩
              · exact ⟨rfl, Or.inr rfl⟩
            | ok u =>
              simp only [hput] at hev
              simp at hev
              rcases hev with hev | rfl
              · rcases hcfg ev hev with ⟨_, h2, h3'⟩
                exact ⟨h2, Or.inr h3'⟩
              · exact ⟨rfl, Or.inr rfl⟩

/-- Counting attempts distributes over trace concatenation. -/
theorem attemptsIn_append (a b : List Event) :
    attemptsIn (a ++ b) = attemptsIn a + attemptsIn b := by
  simp [attemptsIn, List.filter_append]

/-- A trace without attempt markers counts zero attempts. -/
theorem attemptsIn_eq_zero {ev : List Event} (h : ∀ e ∈ ev, e.isAttempt = false) :
    attemptsIn ev = 0 := by
  unfold attemptsIn
  rw [List.filter_eq_nil_iff.mpr (by intro a ha; simp [h a ha])]
  rfl

/-- One commit attempt records no attempt markers of its own. -/
theorem attemptsIn_copyUpdatedConfigAndManifest (w : World) (ic : ImageCopierState)
    (ti : Option Digest) :
    attemptsIn (copyUpdatedConfigAndManifest w ic ti).2 = 0 :=
  attemptsIn_eq_zero (fun e he => (copyUpdatedConfigAndManifest_events w ic ti e he).1)

/-! ## Shared concrete instances for witnesses and counterexamples -/

/-- A default per-blob behaviour: uncompressed stream, clean drain, clean
validation, empty diffID, zero-size blob. -/
def dummyBlobWorld : BlobWorld := ⟨.ok false, none, false, .ok "", .ok 0⟩

/-- A default destination oracle. -/
def dummyDest : DestWorld :=
  ⟨[], false, false, false, none, fun _ => .ok (false, -1), fun b => .ok b,
   fun _ _ => .error (.errorMsg "unused"), fun _ _ => .ok (), none, fun _ _ => none⟩

/-- A default pending image with no config. -/
def dummyPending : PendingImage := ⟨.ok [], ⟨"", 0, [], ""⟩, .ok []⟩

/-- A default source image. -/
def dummySrc : SrcImage :=
  ⟨[], "", [], none, ⟨"", 0, [], ""⟩, .ok [], .ok [], .ok "", fun _ => false,
   fun _ => false, fun _ => .ok dummyPending⟩

/-- A default unparsed image: a single image, admitted by policy. -/
def dummyUnparsed : UnparsedImage :=
  ⟨.error (.errorMsg "unused"), .ok false, (true, none), .ok dummySrc⟩

/-- A default world built from the defaults above. -/
def dummyWorld : World :=
  ⟨dummyDest, fun _ => dummyBlobWorld, fun _ => none, fun _ => .ok "sha256:m",
   fun _ _ => .error (.errorMsg "unused"), "linux", fun _ => dummyUnparsed, .ok [],
   fun _ _ => .error (.errorMsg "unused"), fun _ => .error (.errorMsg "unused")⟩

/-! ## Claim C2 -/

/-- C2: when the source stream of a blob reaches end of input and the digest
computed over the bytes read differs from the declared digest, the read fails
with a digest-mismatch error whose message names both the expected and the
actual digest, and the reader's sticky validation flag is set to true. -/
theorem c2_digest_mismatch_on_eof (hash : Bytes → Digest) (d : DigestingReader)
    (chunk : Bytes) (h : hash (d.hashed ++ chunk) ≠ d.expectedDigest) :
    digestingReaderRead hash d chunk .eof =
      ({ hashed := d.hashed ++ chunk, expectedDigest := d.expectedDigest,
         validationFailed := true }, 0,
       .err (.digestMismatch d.expectedDigest (hash (d.hashed ++ chunk))))
    ∧ ∃ before between,
        Err.render (.digestMismatch d.expectedDigest (hash (d.hashed ++ chunk))) =
          before ++ d.expectedDigest ++ between ++ hash (d.hashed ++ chunk) := by
  constructor
  · cases chunk with
    | nil =>
      rw [List.append_nil] at h
      simp [digestingReaderRead, h]
    | cons a as => simp [digestingReaderRead, h]
  · exact ⟨"Digest did not match, expected ", ", got ", rfl⟩

/-- Concrete digest function for the C2 witness. -/
def c2hash : Bytes → Digest := fun b => if b = [1] then "sha256:good" else "sha256:bad"

/-- Witness for C2: a concrete stream whose bytes hash to a different digest
than expected is rejected with the mismatch error and the sticky flag set. -/
theorem c2_digest_mismatch_on_eof_witness :
    digestingReaderRead c2hash ⟨[], "sha256:good", false⟩ [2] .eof =
      ({ hashed := ([] : Bytes) ++ [2], expectedDigest := "sha256:good",
         validationFailed := true }, 0,
       .err (.digestMismatch "sha256:good" (c2hash (([] : Bytes) ++ [2]))))
    ∧ ∃ before between,
        Err.render (.digestMismatch "sha256:good" (c2hash (([] : Bytes) ++ [2]))) =
          before ++ "sha256:good" ++ between ++ c2hash (([] : Bytes) ++ [2]) :=
  c2_digest_mismatch_on_eof c2hash ⟨[], "sha256:good", false⟩ [2] (by decide)

/-! ## Claim C5 -/

/-- C5 (amended): under a required runtime-OS match with a parsed config, the
copy is rejected exactly when the wanted OS is Windows and the image OS is
Linux, or the wanted OS is not Windows and the image OS is Windows.  (The
claimed symmetric XOR rule differs: a non-Linux, non-Windows image is accepted
by a Windows target.) -/
theorem c5_os_check_rule (w : World) (ctx : Option SystemContext) (src : SrcImage)
    (os : String) (hmm : w.dest.mustMatchRuntimeOS = true)
    (hcfg : src.ociConfigOS = .ok os) :
    (checkImageDestinationForCurrentRuntimeOS w ctx src ≠ none) ↔
      ((wantedOSOf w.goos ctx = "windows" ∧ os = "linux") ∨
       (wantedOSOf w.goos ctx ≠ "windows" ∧ os = "windows")) := by
  unfold checkImageDestinationForCurrentRuntimeOS
  rw [if_pos hmm]
  simp only [hcfg]
  split_ifs with h1 h2 <;> simp_all

/-- Witness for C5 (amended): a Windows image on a Linux target is rejected. -/
theorem c5_os_check_rule_witness :
    (checkImageDestinationForCurrentRuntimeOS
        { dummyWorld with dest := { dummyDest with mustMatchRuntimeOS := true } } none
        { dummySrc with ociConfigOS := .ok "windows" } ≠ none) ↔
      ((wantedOSOf "linux" none = "windows" ∧ "windows" = "linux") ∨
       (wantedOSOf "linux" none ≠ "windows" ∧ "windows" = "windows")) :=
  c5_os_check_rule _ none _ "windows" rfl rfl

/-- World for the C5 counterexample: a Windows target that must match. -/
def c5world : World :=
  { dummyWorld with
    dest := { dummyDest with mustMatchRuntimeOS := true }
    goos := "windows" }

/-- Source image for the C5 counterexample: a Darwin image. -/
def c5src : SrcImage := { dummySrc with ociConfigOS := .ok "darwin" }

/-- C5 counterexample: a Darwin image against a Windows target satisfies the
claimed XOR condition `(image.os == windows) XOR (target.os == windows)`, yet
the check accepts it, so "rejected exactly when XOR" is false of the code. -/
theorem c5_os_check_counterexample :
    checkImageDestinationForCurrentRuntimeOS c5world none c5src = none ∧
    wantedOSOf c5world.goos none = "windows" ∧
    ¬(("darwin" = "windows") ↔ ("windows" = "windows")) :=
  ⟨by decide, by decide, by decide⟩

/-! ## Claim C7 -/

/-- C7: a layer with a non-empty URL list, at a destination accepting foreign
layers, is not transferred (no event at all, in particular no fetch): the
source info is passed through with an empty diffID slot; when diffIDs are
needed the copy fails with the unimplemented error. -/
theorem c7_foreign_layer_passthrough (ic : ImageCopierState) (w : World) (cache : Cache)
    (srcLayer : BlobInfo) (hf : w.dest.acceptsForeignLayerURLs = true)
    (hu : srcLayer.urls ≠ []) :
    (ic.diffIDsAreNeeded = true →
      copyLayersStep ic w cache srcLayer =
        (.error (.errorMsg "getting DiffID for foreign layers is unimplemented"), cache, []))
    ∧ (ic.diffIDsAreNeeded = false →
      copyLayersStep ic w cache srcLayer = (.ok (srcLayer, ""), cache, [])) := by
  have hne : srcLayer.urls.isEmpty = false := by
    cases h : srcLayer.urls with
    | nil => exact absurd h hu
    | cons a as => rfl
  unfold copyLayersStep
  rw [if_pos (by simp [hf, hne])]
  constructor <;> intro h <;> simp [h]

/-- World for the C7 witness: a destination accepting foreign layers. -/
def c7world : World :=
  { dummyWorld with dest := { dummyDest with acceptsForeignLayerURLs := true } }

/-- Foreign layer for the C7 witness. -/
def c7layer : BlobInfo := ⟨"sha256:foreign", 5, ["u"], ""⟩

/-- Copier state needing diffIDs, for the C7 witness. -/
def c7icNeeded : ImageCopierState := ⟨ManifestUpdateOptions.empty, dummySrc, true, true⟩

/-- Copier state not needing diffIDs, for the C7 witness. -/
def c7icNotNeeded : ImageCopierState := ⟨ManifestUpdateOptions.empty, dummySrc, false, true⟩

/-- Witness for C7: both branches at a concrete foreign layer. -/
theorem c7_foreign_layer_passthrough_witness :
    copyLayersStep c7icNeeded c7world emptyCache c7layer =
      (.error (.errorMsg "getting DiffID for foreign layers is unimplemented"), emptyCache, [])
    ∧ copyLayersStep c7icNotNeeded c7world emptyCache c7layer =
      (.ok (c7layer, ""), emptyCache, []) :=
  ⟨(c7_foreign_layer_passthrough c7icNeeded c7world emptyCache c7layer rfl (by decide)).1 rfl,
   (c7_foreign_layer_passthrough c7icNotNeeded c7world emptyCache c7layer rfl (by decide)).2 rfl⟩

/-! ## Claim C10 -/

/-- C10: when the copy body succeeded (nil primary error), the deferred close
handlers of `Image` return success whatever the source and destination close
errors are: wrapping a nil error yields nil, so close failures are silently
discarded. -/
theorem c10_teardown_discards_close_errors (srcCloseErr destCloseErr : Option Err) :
    imageDeferredCloses none srcCloseErr destCloseErr = none := by
  unfold imageDeferredCloses errorsWrapf
  cases srcCloseErr <;> cases destCloseErr <;> rfl

/-! ## Claim C6 -/

/-- C6: on the skip path (blob already present, no diffID needed), the copy
fails with the size-mismatch error iff the source asserts a size (not -1) that
differs from the destination-reported size; otherwise the blob is reapplied —
the trace holds exactly the presence check and the reapply call, never a
fetch — and a successful reapply returns its blob info with the cached diffID. -/
theorem c6_skip_path (ic : ImageCopierState) (w : World) (cache : Cache)
    (srcInfo : BlobInfo) (extantSize : Int)
    (hhave : w.dest.hasBlob srcInfo = .ok (true, extantSize))
    (hnod : (ic.diffIDsAreNeeded && (cache srcInfo.digest == "")) = false) :
    ((copyLayer ic w cache srcInfo).1 =
        .error (.errorMsg ("Error: blob " ++ srcInfo.digest ++
          " is already present, but with size " ++ toString extantSize ++
          " instead of " ++ toString srcInfo.size))
      ↔ (srcInfo.size ≠ -1 ∧ srcInfo.size ≠ extantSize))
    ∧ ((srcInfo.size = -1 ∨ srcInfo.size = extantSize) →
        (copyLayer ic w cache srcInfo).2.1 = cache
        ∧ (copyLayer ic w cache srcInfo).2.2 =
            [Event.hasBlob srcInfo.digest, Event.reapplyBlob srcInfo.digest]
        ∧ ∀ b, w.dest.reapplyBlob { srcInfo with size := extantSize } = .ok b →
            (copyLayer ic w cache srcInfo).1 = .ok (b, cache srcInfo.digest)) := by
  unfold copyLayer
  simp only [hhave]
  rw [if_pos (by simp [hnod])]
  by_cases hsz : (srcInfo.size != -1 && srcInfo.size != extantSize) = true
  · rw [if_pos hsz]
    simp only [bne_iff_ne, Bool.and_eq_true, ne_eq] at hsz
    constructor
    · simp [hsz]
    · intro hor
      rcases hor with hor | hor <;> exact absurd hor (by simp [hsz.1, hsz.2])
  · rw [if_neg hsz]
    simp only [Bool.and_eq_true, bne_iff_ne, ne_eq, not_and_or, not_not] at hsz
    cases hre : w.dest.reapplyBlob { srcInfo with size := extantSize } with
    | error e =>
      constructor
      · constructor
        · intro hc; cases hc
        · intro hc
          exact absurd hsz (by simp [hc.1, hc.2])
      · intro hor
        exact ⟨rfl, rfl, fun b hb => by simp at hb⟩
    | ok b0 =>
      constructor
      · constructor
        · intro hc; cases hc
        · intro hc
          exact absurd hsz (by simp [hc.1, hc.2])
      · intro hor
        refine ⟨rfl, rfl, fun b hb => ?_⟩
        cases hb
        rfl

/-- Destination for the C6 witness: blob present with size 5, reapply echoes. -/
def c6dest : DestWorld :=
  { dummyDest with
    hasBlob := fun _ => .ok (true, 5)
    reapplyBlob := fun i => .ok i }

/-- World for the C6 witness. -/
def c6world : World := { dummyWorld with dest := c6dest }

/-- Blob info for the C6 witness. -/
def c6info : BlobInfo := ⟨"sha256:aaa", 5, [], ""⟩

/-- Copier state for the C6 witness: diffIDs not needed. -/
def c6ic : ImageCopierState := ⟨ManifestUpdateOptions.empty, dummySrc, false, true⟩

/-- Witness for C6: a present blob of matching size at a concrete destination. -/
theorem c6_skip_path_witness :
    ((copyLayer c6ic c6world emptyCache c6info).1 =
        .error (.errorMsg ("Error: blob " ++ c6info.digest ++
          " is already present, but with size " ++ toString (5 : Int) ++
          " instead of " ++ toString c6info.size))
      ↔ (c6info.size ≠ -1 ∧ c6info.size ≠ 5))
    ∧ ((c6info.size = -1 ∨ c6info.size = 5) →
        (copyLayer c6ic c6world emptyCache c6info).2.1 = emptyCache
        ∧ (copyLayer c6ic c6world emptyCache c6info).2.2 =
            [Event.hasBlob c6info.digest, Event.reapplyBlob c6info.digest]
        ∧ ∀ b, c6world.dest.reapplyBlob { c6info with size := 5 } = .ok b →
            (copyLayer c6ic c6world emptyCache c6info).1 = .ok (b, emptyCache c6info.digest)) :=
  c6_skip_path c6ic c6world emptyCache c6info 5 rfl rfl

/-! ## Claim C9 -/

/-- C9: in the layer pipeline, on-the-fly compression happens exactly when the
manifest may be modified, the input is not already compressed, and the
destination wants compressed layers — so with an unmodifiable (signed)
manifest, no compression event occurs and every `PutBlob` call presents the
blob under its original info. -/
theorem c9_compress_only_when_modifiable (ic : ImageCopierState) (w : World)
    (srcInfo : BlobInfo) (diffIDIsNeeded isCompressed : Bool)
    (hspec : w.digestSpecErrMsg srcInfo.digest = none)
    (hdet : (w.blob srcInfo.digest).detectCompression = .ok isCompressed) :
    ((Event.compress srcInfo.digest ∈ (copyLayerFromStream ic w srcInfo diffIDIsNeeded).2) ↔
      (ic.canModifyManifest = true ∧ isCompressed = false ∧
       w.dest.shouldCompressLayers = true))
    ∧ (ic.canModifyManifest = false →
        ∀ d i, Event.putBlob d i ∈ (copyLayerFromStream ic w srcInfo diffIDIsNeeded).2 →
          i = srcInfo) := by
  unfold copyLayerFromStream copyBlobFromStream
  simp only [hspec, hdet]
  by_cases hc : (!ic.canModifyManifest || isCompressed || !w.dest.shouldCompressLayers) = true
  · rw [if_pos hc]
    rw [uploadAndCheck_events]
    constructor
    · constructor
      · intro hmem; simp at hmem
      · rintro ⟨h1, h2, h3⟩
        rw [h1, h2, h3] at hc
        simp at hc
    · intro hcm d i hmem
      simp at hmem
      exact hmem.2
  · rw [if_neg hc]
    rw [uploadAndCheck_events]
    have h1 : ic.canModifyManifest = true := by
      cases hcm : ic.canModifyManifest
      · exact absurd (by simp [hcm]) hc
      · rfl
    have h2 : isCompressed = false := by
      cases hic : isCompressed
      · rfl
      · exact absurd (by simp [hic]) hc
    have h3 : w.dest.shouldCompressLayers = true := by
      cases hs : w.dest.shouldCompressLayers
      · exact absurd (by simp [hs]) hc
      · rfl
    constructor
    · simp [h1, h2, h3]
    · intro hcm
      rw [h1] at hcm
      exact Bool.noConfusion hcm

/-- Destination for the C9 witness: wants compressed layers. -/
def c9dest : DestWorld :=
  { dummyDest with
    shouldCompressLayers := true
    putBlob := fun _ _ => .ok ⟨"sha256:out", 7, [], ""⟩ }

/-- World for the C9 witness. -/
def c9world : World := { dummyWorld with dest := c9dest }

/-- Copier state for the C9 witness: the manifest may be modified. -/
def c9ic : ImageCopierState := ⟨ManifestUpdateOptions.empty, dummySrc, false, true⟩

/-- Blob info for the C9 witness. -/
def c9info : BlobInfo := ⟨"sha256:aaa", 5, [], ""⟩

/-- Witness for C9: with a modifiable manifest, an uncompressed input and a
compression-wanting destination, the compress event occurs. -/
theorem c9_compress_only_when_modifiable_witness :
    ((Event.compress c9info.digest ∈ (copyLayerFromStream c9ic c9world c9info false).2) ↔
      (c9ic.canModifyManifest = true ∧ false = false ∧
       c9world.dest.shouldCompressLayers = true))
    ∧ (c9ic.canModifyManifest = false →
        ∀ d i, Event.putBlob d i ∈ (copyLayerFromStream c9ic c9world c9info false).2 →
          i = c9info) :=
  c9_compress_only_when_modifiable c9ic c9world c9info false false rfl rfl

/-! ## Claim C8 -/

/-- C8: a non-empty config blob goes through the blob pipeline with compression
disabled (no compress event can occur), and when the pipeline succeeds, a
digest change at the destination is the internal-integrity failure while a
preserved digest is success. -/
theorem c8_config_uncompressed_integrity (w : World) (img : PendingImage)
    (hd : img.configInfo.digest ≠ "") :
    (∀ d, Event.compress d ∉ (copyConfig w img).2)
    ∧ (∀ blob destInfo, img.configBlob = .ok blob →
        (copyBlobFromStream w img.configInfo false false).1 = .ok destInfo →
        (destInfo.digest ≠ img.configInfo.digest →
          (copyConfig w img).1 = some (.errorMsg
            ("Internal error: copying uncompressed config blob " ++
             img.configInfo.digest ++ " changed digest to " ++ destInfo.digest)))
        ∧ (destInfo.digest = img.configInfo.digest → (copyConfig w img).1 = none)) := by
  constructor
  · intro d hmem
    unfold copyConfig at hmem
    cases hcb : img.configBlob with
    | error e => simp [hd, hcb] at hmem
    | ok blob =>
      rcases hpipe : copyBlobFromStream w img.configInfo false false with ⟨res, ev1⟩
      have h3 : (copyBlobFromStream w img.configInfo false false).2 = ev1 := by rw [hpipe]
      have hnc := copyBlobFromStream_no_compress w img.configInfo false d
      rw [h3] at hnc
      cases res with
      | error e =>
        simp [hd, hcb, hpipe] at hmem
        exact hnc hmem
      | ok destInfo =>
        simp [hd, hcb, hpipe, apply_ite Prod.snd] at hmem
        exact hnc hmem
  · intro blob destInfo hcb hpipe
    rcases hp : copyBlobFromStream w img.configInfo false false with ⟨res, ev1⟩
    rw [hp] at hpipe
    simp at hpipe
    subst hpipe
    constructor
    · intro hne
      unfold copyConfig
      simp [hd, hcb, hp, hne]
    · intro heq
      unfold copyConfig
      simp [hd, hcb, hp, heq]

/-- Destination for the C8 witness: echoes the uploaded blob info. -/
def c8dest : DestWorld := { dummyDest with putBlob := fun _ i => .ok i }

/-- World for the C8 witness. -/
def c8world : World := { dummyWorld with dest := c8dest }

/-- Pending image for the C8 witness: a config blob is present. -/
def c8img : PendingImage := ⟨.ok [1, 2], ⟨"sha256:cfg", 2, [], ""⟩, .ok [1, 2]⟩

/-- Witness for C8: a concrete config copy with compression disabled. -/
theorem c8_config_uncompressed_integrity_witness :
    (∀ d, Event.compress d ∉ (copyConfig c8world c8img).2)
    ∧ (∀ blob destInfo, c8img.configBlob = .ok blob →
        (copyBlobFromStream c8world c8img.configInfo false false).1 = .ok destInfo →
        (destInfo.digest ≠ c8img.configInfo.digest →
          (copyConfig c8world c8img).1 = some (.errorMsg
            ("Internal error: copying uncompressed config blob " ++
             c8img.configInfo.digest ++ " changed digest to " ++ destInfo.digest)))
        ∧ (destInfo.digest = c8img.configInfo.digest →
          (copyConfig c8world c8img).1 = none)) :=
  c8_config_uncompressed_integrity c8world c8img (by decide)

/-! ## Claim C3 -/

/-- An attempt marker at the head of a trace adds one to the attempt count. -/
theorem attemptsIn_attempt_cons (t : String) (l : List Event) :
    attemptsIn (Event.attemptManifest t :: l) = attemptsIn l + 1 := by
  simp [attemptsIn, List.filter_cons, Event.isAttempt]

/-- The fallback iteration always attempts its first candidate. -/
theorem tryOtherCandidates_head_attempt (w : World) (ic : ImageCopierState)
    (ti : Option Digest) (t : String) (rest errs : List String) :
    Event.attemptManifest t ∈ (tryOtherCandidates w ic ti (t :: rest) errs).2 := by
  rcases hc : copyUpdatedConfigAndManifest w
      { ic with manifestUpdates := { ic.manifestUpdates with manifestMIMEType := t } } ti
    with ⟨res, evA⟩
  unfold tryOtherCandidates
  simp only [hc]
  cases res <;> simp

/-- When its first candidate fails (with an error of any kind), the fallback
iteration goes on to attempt the next candidate. -/
theorem tryOtherCandidates_next_attempt (w : World) (ic : ImageCopierState)
    (ti : Option Digest) (t1 t2 : String) (rest : List String) (errs : List String) (e1 : Err)
    (h1 : (copyUpdatedConfigAndManifest w
      { ic with manifestUpdates := { ic.manifestUpdates with manifestMIMEType := t1 } }
      ti).1 = .error e1) :
    Event.attemptManifest t2 ∈ (tryOtherCandidates w ic ti (t1 :: t2 :: rest) errs).2 := by
  rcases hc : copyUpdatedConfigAndManifest w
      { ic with manifestUpdates := { ic.manifestUpdates with manifestMIMEType := t1 } } ti
    with ⟨res, evA⟩
  rw [hc] at h1
  simp at h1
  subst h1
  have h := tryOtherCandidates_head_attempt w ic ti t2 rest
    (errs ++ [t1 ++ "(" ++ e1.render ++ ")"])
  unfold tryOtherCandidates
  simp only [hc]
  exact List.mem_append.mpr (Or.inr h)

/-- When every candidate in the fallback list fails (each with an error of any
kind, given by the oracle `f`), the fallback iteration attempts every candidate
and reports all accumulated per-type errors together in one combined error. -/
theorem tryOtherCandidates_all_fail (w : World) (ic : ImageCopierState)
    (ti : Option Digest) (f : String → Err) :
    ∀ (cands : List String) (errs : List String),
      (∀ t ∈ cands, ∃ ev, copyUpdatedConfigAndManifest w
        { ic with manifestUpdates :=
          { ic.manifestUpdates with manifestMIMEType := t } } ti = (.error (f t), ev)) →
      (tryOtherCandidates w ic ti cands errs).1 =
        .error (.errorMsg ("Uploading manifest failed, attempted the following formats: " ++
          joinComma (errs ++ cands.map (fun t => t ++ "(" ++ (f t).render ++ ")")))) ∧
      attemptsIn (tryOtherCandidates w ic ti cands errs).2 = cands.length := by
  intro cands
  induction cands with
  | nil =>
    intro errs hall
    refine ⟨?_, ?_⟩
    · simp [tryOtherCandidates]
    · rfl
  | cons t rest ih =>
    intro errs hall
    obtain ⟨ev, hev⟩ := hall t (List.mem_cons_self t rest)
    have hevA : attemptsIn ev = 0 := by
      have h := attemptsIn_copyUpdatedConfigAndManifest w
        { ic with manifestUpdates :=
          { ic.manifestUpdates with manifestMIMEType := t } } ti
      rw [hev] at h
      exact h
    have hrest := ih (errs ++ [t ++ "(" ++ (f t).render ++ ")"])
      (fun s hs => hall s (List.mem_cons_of_mem t hs))
    unfold tryOtherCandidates
    simp only [hev]
    constructor
    · rw [hrest.1]
      rw [List.append_assoc]
      rfl
    · rw [attemptsIn_append, attemptsIn_attempt_cons, hevA, hrest.2]
      simp only [List.length_cons]
      omega

/-- Once the fallback iteration has begun, candidates are attempted in order
past failures of any kind: after any prefix of failing candidates, the first
succeeding candidate is attempted and its manifest is returned. -/
theorem tryOtherCandidates_first_success (w : World) (ic : ImageCopierState)
    (ti : Option Digest) (t : String) (rest : List String) (man : Bytes) (ev : List Event)
    (hok : copyUpdatedConfigAndManifest w
      { ic with manifestUpdates :=
        { ic.manifestUpdates with manifestMIMEType := t } } ti = (.ok man, ev)) :
    ∀ (failCands : List String) (errs : List String),
      (∀ s ∈ failCands, ∃ e ev', copyUpdatedConfigAndManifest w
        { ic with manifestUpdates :=
          { ic.manifestUpdates with manifestMIMEType := s } } ti = (.error e, ev')) →
      (tryOtherCandidates w ic ti (failCands ++ t :: rest) errs).1 = .ok (man, t) ∧
      attemptsIn (tryOtherCandidates w ic ti (failCands ++ t :: rest) errs).2 =
        failCands.length + 1 := by
  intro failCands
  induction failCands with
  | nil =>
    intro errs hall
    have hevA : attemptsIn ev = 0 := by
      have h := attemptsIn_copyUpdatedConfigAndManifest w
        { ic with manifestUpdates :=
          { ic.manifestUpdates with manifestMIMEType := t } } ti
      rw [hok] at h
      exact h
    rw [List.nil_append]
    unfold tryOtherCandidates
    simp only [hok]
    exact ⟨trivial, by rw [attemptsIn_attempt_cons, hevA]; rfl⟩
  | cons s fs ih =>
    intro errs hall
    obtain ⟨e, ev', hev'⟩ := hall s (List.mem_cons_self s fs)
    have hevA : attemptsIn ev' = 0 := by
      have h := attemptsIn_copyUpdatedConfigAndManifest w
        { ic with manifestUpdates :=
          { ic.manifestUpdates with manifestMIMEType := s } } ti
      rw [hev'] at h
      exact h
    have hrest := ih (errs ++ [s ++ "(" ++ e.render ++ ")"])
      (fun x hx => hall x (List.mem_cons_of_mem s hx))
    rw [List.cons_append]
    unfold tryOtherCandidates
    simp only [hev']
    constructor
    · exact hrest.1
    · rw [attemptsIn_append, attemptsIn_attempt_cons, hevA, hrest.2]
      simp only [List.length_cons]
      omega

/-- C3 (amended): in the manifest commit retry loop, fallback candidates are
attempted only after a first failure whose cause is classified as a manifest
rejection, with candidates available and a modifiable manifest; a first
failure of any other kind aborts with exactly that error after the single
attempt; when the manifest may not be modified the loop aborts immediately
after the first failure — with the combined "converting is not possible" error
when the cause was a rejection and candidates existed — without attempting any
fallback; once the fallback iteration has begun, the next candidate is
attempted even when the previous candidate failed with an error of any kind;
when every fallback candidate fails (each with an error of any kind), every
candidate is attempted and the accumulated per-type errors are reported
together in the one combined "Uploading manifest failed" error; and after any
prefix of failing fallback candidates, the first succeeding candidate's
manifest is returned (so the combined error is reported only when all
candidates fail). -/
theorem c3_manifest_retry_classification (w : World) (ic : ImageCopierState)
    (ti : Option Digest) (preferred : String) (others : List String) :
    (attemptsIn (commitManifest w ic ti preferred others).2 ≥ 2 →
      ∃ e, (copyUpdatedConfigAndManifest w ic ti).1 = .error e ∧
        Err.isManifestRejected (Err.cause e) = true ∧ ic.canModifyManifest = true ∧
        others ≠ [])
    ∧ (∀ e, (copyUpdatedConfigAndManifest w ic ti).1 = .error e →
        Err.isManifestRejected (Err.cause e) = false →
        (commitManifest w ic ti preferred others).1 = .error e ∧
        attemptsIn (commitManifest w ic ti preferred others).2 = 1)
    ∧ (ic.canModifyManifest = false →
        ∀ e, (copyUpdatedConfigAndManifest w ic ti).1 = .error e →
        attemptsIn (commitManifest w ic ti preferred others).2 = 1 ∧
        (commitManifest w ic ti preferred others).1 =
          .error (if Err.isManifestRejected (Err.cause e) && !others.isEmpty then
            .wrap "Writing manifest failed (and converting it is not possible)" e else e))
    ∧ (∀ e t1 t2 rest, (copyUpdatedConfigAndManifest w ic ti).1 = .error e →
        Err.isManifestRejected (Err.cause e) = true → ic.canModifyManifest = true →
        others = t1 :: t2 :: rest →
        (∃ e1, (copyUpdatedConfigAndManifest w
          { ic with manifestUpdates :=
            { ic.manifestUpdates with manifestMIMEType := t1 } } ti).1 = .error e1) →
        Event.attemptManifest t2 ∈ (commitManifest w ic ti preferred others).2)
    ∧ (∀ (e : Err) (f : String → Err),
        (copyUpdatedConfigAndManifest w ic ti).1 = .error e →
        Err.isManifestRejected (Err.cause e) = true → ic.canModifyManifest = true →
        others ≠ [] →
        (∀ t ∈ others, ∃ ev', copyUpdatedConfigAndManifest w
          { ic with manifestUpdates :=
            { ic.manifestUpdates with manifestMIMEType := t } } ti = (.error (f t), ev')) →
        (commitManifest w ic ti preferred others).1 =
          .error (.errorMsg ("Uploading manifest failed, attempted the following formats: " ++
            joinComma ((preferred ++ "(" ++ e.render ++ ")") ::
              others.map (fun t => t ++ "(" ++ (f t).render ++ ")")))) ∧
        attemptsIn (commitManifest w ic ti preferred others).2 = others.length + 1)
    ∧ (∀ (e : Err) (failCands : List String) (t : String) (rest2 : List String)
        (man : Bytes) (ev' : List Event),
        (copyUpdatedConfigAndManifest w ic ti).1 = .error e →
        Err.isManifestRejected (Err.cause e) = true → ic.canModifyManifest = true →
        others = failCands ++ t :: rest2 →
        (∀ s ∈ failCands, ∃ e2 ev2, copyUpdatedConfigAndManifest w
          { ic with manifestUpdates :=
            { ic.manifestUpdates with manifestMIMEType := s } } ti = (.error e2, ev2)) →
        copyUpdatedConfigAndManifest w
          { ic with manifestUpdates :=
            { ic.manifestUpdates with manifestMIMEType := t } } ti = (.ok man, ev') →
        (commitManifest w ic ti preferred others).1 = .ok (man, t) ∧
        attemptsIn (commitManifest w ic ti preferred others).2 = failCands.length + 2) := by
  rcases hfirst : copyUpdatedConfigAndManifest w ic ti with ⟨res, ev⟩
  have hev0 : attemptsIn ev = 0 := by
    have h := attemptsIn_copyUpdatedConfigAndManifest w ic ti
    rw [hfirst] at h
    exact h
  unfold commitManifest
  rw [hfirst]
  cases res with
  | ok man =>
    dsimp only
    refine ⟨?_, ?_, ?_, ?_, ?_, ?_⟩
    · intro hge
      rw [attemptsIn_attempt_cons, hev0] at hge
      omega
    · intro e he; simp at he
    · intro hcm e he; simp at he
    · intro e t1 t2 rest he; simp at he
    · intro e f he; simp at he
    · intro e failCands t rest2 man ev' he; simp at he
  | error err =>
    dsimp only
    by_cases habort : (!(Err.isManifestRejected (Err.cause err)) || others.isEmpty) = true
    · rw [if_pos habort]
      refine ⟨?_, ?_, ?_, ?_, ?_, ?_⟩
      · intro hge
        rw [attemptsIn_attempt_cons, hev0] at hge
        omega
      · intro e he hrj
        simp only [Except.error.injEq] at he
        subst he
        exact ⟨rfl, by rw [attemptsIn_attempt_cons, hev0]⟩
      · intro hcm e he
        simp only [Except.error.injEq] at he
        subst he
        refine ⟨by rw [attemptsIn_attempt_cons, hev0], ?_⟩
        have hcond : (Err.isManifestRejected (Err.cause err) && !others.isEmpty) = false := by
          rcases (Bool.or_eq_true _ _).mp habort with h | h
          · simp only [Bool.not_eq_true'] at h
            simp [h]
          · simp [h]
        rw [hcond]
        simp
      · intro e t1 t2 rest he hrj hcm hlist
        simp only [Except.error.injEq] at he
        subst he
        rw [hrj, hlist] at habort
        simp at habort
      · intro e f he hrj2 hcm2 hne2 hall
        simp only [Except.error.injEq] at he
        subst he
        rw [hrj2] at habort
        simp only [Bool.not_true, Bool.false_or] at habort
        exact absurd (List.isEmpty_iff.mp habort) hne2
      · intro e failCands t rest2 man ev' he hrj2 hcm2 hlist hfail hok
        simp only [Except.error.injEq] at he
        subst he
        rw [hrj2] at habort
        simp only [Bool.not_true, Bool.false_or] at habort
        subst hlist
        cases failCands <;> simp at habort
    · rw [if_neg habort]
      have hrj : Err.isManifestRejected (Err.cause err) = true := by
        cases h : Err.isManifestRejected (Err.cause err)
        · exact absurd (by simp [h]) habort
        · rfl
      have hne : others.isEmpty = false := by
        cases h : others.isEmpty
        · rfl
        · exact absurd (by simp [h]) habort
      cases hcm : ic.canModifyManifest with
      | false =>
        rw [if_pos (by simp)]
        refine ⟨?_, ?_, ?_, ?_, ?_, ?_⟩
        · intro hge
          rw [attemptsIn_attempt_cons, hev0] at hge
          omega
        · intro e he hrj2
          simp only [Except.error.injEq] at he
          subst he
          simp [hrj] at hrj2
        · intro _ e he
          simp only [Except.error.injEq] at he
          subst he
          refine ⟨by rw [attemptsIn_attempt_cons, hev0], ?_⟩
          rw [hrj]
          rw [hne]
          simp
        · intro e t1 t2 rest he hrj2 hcm2 hlist
          simp at hcm2
        · intro e f he hrj2 hcm2
          simp at hcm2
        · intro e failCands t rest2 man ev' he hrj2 hcm2
          simp at hcm2
      | true =>
        rw [if_neg (by simp)]
        refine ⟨?_, ?_, ?_, ?_, ?_, ?_⟩
        · intro hge
          refine ⟨err, rfl, hrj, rfl, ?_⟩
          intro h
          rw [h] at hne
          simp at hne
        · intro e he hrj2
          simp only [Except.error.injEq] at he
          subst he
          simp [hrj] at hrj2
        · intro hcm2
          simp at hcm2
        · intro e t1 t2 rest he hrj2 hcm2 hlist hfail
          simp only [Except.error.injEq] at he
          subst he
          obtain ⟨e1, he1⟩ := hfail
          subst hlist
          have he1' : (copyUpdatedConfigAndManifest w
              { ic with manifestUpdates :=
                { ic.manifestUpdates with manifestMIMEType := t1 } } ti).1 = .error e1 := by
            simp only [hcm]
            exact he1
          have hmem := tryOtherCandidates_next_attempt w ic ti t1 t2 rest
            [preferred ++ "(" ++ Err.render err ++ ")"] e1 he1'
          exact List.mem_append.mpr (Or.inr hmem)
        · intro e f he hrj2 hcm2 hne2 hall
          simp only [Except.error.injEq] at he
          subst he
          have hall' : ∀ t ∈ others, ∃ ev', copyUpdatedConfigAndManifest w
              { ic with manifestUpdates :=
                { ic.manifestUpdates with manifestMIMEType := t } } ti =
              (.error (f t), ev') := by
            simp only [hcm]
            exact hall
          obtain ⟨hA1, hA2⟩ := tryOtherCandidates_all_fail w ic ti f others
            [preferred ++ "(" ++ Err.render err ++ ")"] hall'
          constructor
          · exact hA1
          · show attemptsIn ((Event.attemptManifest preferred :: ev) ++
              (tryOtherCandidates w ic ti others
                [preferred ++ "(" ++ Err.render err ++ ")"]).2) = others.length + 1
            rw [attemptsIn_append, attemptsIn_attempt_cons, hev0, hA2]
            omega
        · intro e failCands t rest2 man ev' he hrj2 hcm2 hlist hfail hok
          simp only [Except.error.injEq] at he
          subst he
          subst hlist
          have hfail' : ∀ s ∈ failCands, ∃ e2 ev2, copyUpdatedConfigAndManifest w
              { ic with manifestUpdates :=
                { ic.manifestUpdates with manifestMIMEType := s } } ti =
              (.error e2, ev2) := by
            simp only [hcm]
            exact hfail
          have hok' : copyUpdatedConfigAndManifest w
              { ic with manifestUpdates :=
                { ic.manifestUpdates with manifestMIMEType := t } } ti = (.ok man, ev') := by
            simp only [hcm]
            exact hok
          obtain ⟨hB1, hB2⟩ := tryOtherCandidates_first_success w ic ti t rest2 man ev' hok'
            failCands [preferred ++ "(" ++ Err.render err ++ ")"] hfail'
          constructor
          · exact hB1
          · show attemptsIn ((Event.attemptManifest preferred :: ev) ++
              (tryOtherCandidates w ic ti (failCands ++ t :: rest2)
                [preferred ++ "(" ++ Err.render err ++ ")"]).2) = failCands.length + 2
            rw [attemptsIn_append, attemptsIn_attempt_cons, hev0, hB2]
            omega

/-- Source image for the C3 scenario: the updated manifest bytes depend on the
requested media type, as reserialization does. -/
def c3src : SrcImage :=
  { dummySrc with
    manifestBytes := [1]
    updatedImage := fun u =>
      .ok ⟨.ok (if u.manifestMIMEType = "T1" then [2]
                else if u.manifestMIMEType = "T2" then [3] else [9]),
           ⟨"", 0, [], ""⟩, .ok []⟩ }

/-- Destination for the C3 scenario: rejects the original manifest as a
manifest-type rejection, fails the first fallback with a plain error, and
accepts the second fallback. -/
def c3dest : DestWorld :=
  { dummyDest with
    putManifest := fun b _ =>
      if b = [1] then .error (.manifestRejected "manifest rejected")
      else if b = [2] then .error (.errorMsg "boom")
      else .ok () }

/-- World for the C3 scenario. -/
def c3world : World := { dummyWorld with dest := c3dest }

/-- Copier state for the C3 scenario: modifiable manifest. -/
def c3ic : ImageCopierState := ⟨ManifestUpdateOptions.empty, c3src, false, true⟩

/-- Destination that always rejects with a plain (non-rejection) error. -/
def c3destPlain : DestWorld :=
  { dummyDest with putManifest := fun _ _ => .error (.errorMsg "always") }

/-- World around `c3destPlain`. -/
def c3worldPlain : World := { dummyWorld with dest := c3destPlain }

/-- Copier state over `c3src` with a modifiable manifest (for the plain-error
scenario). -/
def c3icPlain : ImageCopierState := ⟨ManifestUpdateOptions.empty, c3src, false, true⟩

/-- Copier state over `c3src` with an unmodifiable manifest. -/
def c3icSigned : ImageCopierState := ⟨ManifestUpdateOptions.empty, c3src, false, false⟩

/-- C3 counterexample: in the fallback iteration the first candidate fails with
an error that is not classified as a manifest rejection ("boom"), yet the copy
does not abort: the next candidate is attempted and the commit succeeds after
three attempts.  This refutes "a failure of any other kind aborts the copy" as
a statement about every failure in the retry loop. -/
theorem c3_retry_counterexample :
    (copyUpdatedConfigAndManifest c3world
      { c3ic with manifestUpdates :=
        { c3ic.manifestUpdates with manifestMIMEType := "T1" } } none).1 =
      .error (.wrap "Error writing manifest" (.errorMsg "boom"))
    ∧ Err.isManifestRejected
        (Err.cause (.wrap "Error writing manifest" (.errorMsg "boom"))) = false
    ∧ (commitManifest c3world c3ic none "P" ["T1", "T2"]).1 = .ok ([3], "T2")
    ∧ attemptsIn (commitManifest c3world c3ic none "P" ["T1", "T2"]).2 = 3 :=
  ⟨rfl, by decide, rfl, by decide⟩

/-- Witness for C3 (amended): the six parts instantiated at concrete worlds —
a rejected-then-converted run, a plain first failure aborting after one
attempt, an unmodifiable manifest aborting with the combined error, the
second fallback candidate being attempted after the first failed, all
candidates failing with the per-type errors reported together, and a failing
prefix followed by a succeeding candidate whose manifest is returned. -/
theorem c3_manifest_retry_classification_witness :
    (∃ e, (copyUpdatedConfigAndManifest c3world c3ic none).1 = .error e ∧
        Err.isManifestRejected (Err.cause e) = true ∧ c3ic.canModifyManifest = true ∧
        (["T1", "T2"] : List String) ≠ [])
    ∧ ((commitManifest c3worldPlain c3icPlain none "P" ["T1"]).1 =
          .error (.wrap "Error writing manifest" (.errorMsg "always")) ∧
        attemptsIn (commitManifest c3worldPlain c3icPlain none "P" ["T1"]).2 = 1)
    ∧ (attemptsIn (commitManifest c3world c3icSigned none "P" ["T1"]).2 = 1 ∧
        (commitManifest c3world c3icSigned none "P" ["T1"]).1 =
          .error (if Err.isManifestRejected (Err.cause (.wrap "Error writing manifest"
                (.manifestRejected "manifest rejected"))) &&
              !(["T1"] : List String).isEmpty then
            .wrap "Writing manifest failed (and converting it is not possible)"
              (.wrap "Error writing manifest" (.manifestRejected "manifest rejected"))
          else .wrap "Error writing manifest" (.manifestRejected "manifest rejected")))
    ∧ Event.attemptManifest "T2" ∈ (commitManifest c3world c3ic none "P" ["T1", "T2"]).2
    ∧ ((commitManifest c3world c3ic none "P" ["T1"]).1 =
          .error (.errorMsg
            "Uploading manifest failed, attempted the following formats: P(Error writing manifest: manifest rejected), T1(Error writing manifest: boom)") ∧
        attemptsIn (commitManifest c3world c3ic none "P" ["T1"]).2 = 2)
    ∧ ((commitManifest c3world c3ic none "P" ["T1", "T2"]).1 = .ok ([3], "T2") ∧
        attemptsIn (commitManifest c3world c3ic none "P" ["T1", "T2"]).2 = 3) :=
  ⟨(c3_manifest_retry_classification c3world c3ic none "P" ["T1", "T2"]).1 (by decide),
   (c3_manifest_retry_classification c3worldPlain c3icPlain none "P" ["T1"]).2.1
     (.wrap "Error writing manifest" (.errorMsg "always")) rfl (by decide),
   (c3_manifest_retry_classification c3world c3icSigned none "P" ["T1"]).2.2.1 rfl
     (.wrap "Error writing manifest" (.manifestRejected "manifest rejected")) rfl,
   (c3_manifest_retry_classification c3world c3ic none "P" ["T1", "T2"]).2.2.2.1
     (.wrap "Error writing manifest" (.manifestRejected "manifest rejected")) "T1" "T2" []
     rfl (by decide) rfl rfl
     ⟨.wrap "Error writing manifest" (.errorMsg "boom"), rfl⟩,
   (c3_manifest_retry_classification c3world c3ic none "P" ["T1"]).2.2.2.2.1
     (.wrap "Error writing manifest" (.manifestRejected "manifest rejected"))
     (fun _ => .wrap "Error writing manifest" (.errorMsg "boom"))
     rfl (by decide) rfl (by decide)
     (by
       intro t ht
       simp only [List.mem_singleton] at ht
       subst ht
       exact ⟨_, rfl⟩),
   (c3_manifest_retry_classification c3world c3ic none "P" ["T1", "T2"]).2.2.2.2.2
     (.wrap "Error writing manifest" (.manifestRejected "manifest rejected"))
     ["T1"] "T2" [] [3] [Event.putManifest [3] none]
     rfl (by decide) rfl rfl
     (by
       intro s hs
       simp only [List.mem_singleton] at hs
       subst hs
       exact ⟨.wrap "Error writing manifest" (.errorMsg "boom"), _, rfl⟩)
     rfl⟩

/-! ## Claim C1 -/

/-- A successful blob pipeline run returns the blob under the source digest
whenever the destination reports each stored blob under the digest it was
keyed by. -/
theorem copyBlobFromStream_ok_digest (w : World) (s : BlobInfo) (h c : Bool) (b : BlobInfo)
    (hput : ∀ d j r, w.dest.putBlob d j = .ok r → r.digest = d)
    (hok : (copyBlobFromStream w s h c).1 = .ok b) : b.digest = s.digest := by
  unfold copyBlobFromStream at hok
  cases h1 : w.digestSpecErrMsg s.digest with
  | some m => simp [h1] at hok
  | none =>
    simp only [h1] at hok
    cases h2 : (w.blob s.digest).detectCompression with
    | error e => simp [h2] at hok
    | ok isC =>
      simp only [h2] at hok
      by_cases h3 : (!c || isC || !w.dest.shouldCompressLayers) = true
      · rw [if_pos h3] at hok
        exact hput s.digest s b (uploadAndCheck_ok w s s h _ b hok)
      · rw [if_neg h3] at hok
        exact hput s.digest _ b (uploadAndCheck_ok w s _ h _ b hok)

/-- A successful layer copy preserves the layer digest when both the upload
and the reapply oracles preserve digests. -/
theorem copyLayer_ok_digest (ic : ImageCopierState) (w : World) (cache : Cache)
    (srcInfo : BlobInfo) (b : BlobInfo) (dg : Digest) (c : Cache) (ev : List Event)
    (hput : ∀ d j r, w.dest.putBlob d j = .ok r → r.digest = d)
    (hreap : ∀ i r, w.dest.reapplyBlob i = .ok r → r.digest = i.digest)
    (hok : copyLayer ic w cache srcInfo = (.ok (b, dg), c, ev)) :
    b.digest = srcInfo.digest := by
  unfold copyLayer at hok
  cases h1 : w.dest.hasBlob srcInfo with
  | error e => simp [h1] at hok
  | ok pr =>
    obtain ⟨haveBlob, extant⟩ := pr
    simp only [h1] at hok
    cases hskip : (haveBlob && !(ic.diffIDsAreNeeded && (cache srcInfo.digest == ""))) with
    | true =>
      rw [if_pos hskip] at hok
      cases hsz : (srcInfo.size != -1 && srcInfo.size != extant) with
      | true => rw [if_pos hsz] at hok; simp at hok
      | false =>
        rw [if_neg (by rw [hsz]; simp)] at hok
        cases h2 : w.dest.reapplyBlob { srcInfo with size := extant } with
        | error e => simp [h2] at hok
        | ok b0 =>
          simp only [h2] at hok
          simp at hok
          rw [← hok.1.1]
          exact hreap { srcInfo with size := extant } b0 h2
    | false =>
      rw [if_neg (by rw [hskip]; simp)] at hok
      cases h2 : (w.blob srcInfo.digest).getBlob with
      | error e => simp [h2] at hok
      | ok sz =>
        simp only [h2] at hok
        rcases h3 : copyLayerFromStream ic w ⟨srcInfo.digest, sz, [], ""⟩
            (ic.diffIDsAreNeeded && (cache srcInfo.digest == "")) with ⟨res, ev2⟩
        simp only [h3] at hok
        cases res with
        | error e => simp at hok
        | ok blobInfo =>
          have hbd : blobInfo.digest = srcInfo.digest := by
            have hh : (copyLayerFromStream ic w ⟨srcInfo.digest, sz, [], ""⟩
                (ic.diffIDsAreNeeded && (cache srcInfo.digest == ""))).1 = .ok blobInfo := by
              rw [h3]
            exact copyBlobFromStream_ok_digest w ⟨srcInfo.digest, sz, [], ""⟩
              (ic.diffIDsAreNeeded && (cache srcInfo.digest == "")) ic.canModifyManifest
              blobInfo hput hh
          cases hdn : (ic.diffIDsAreNeeded && (cache srcInfo.digest == "")) with
          | true =>
            simp only [hdn] at hok
            cases h4 : (w.blob srcInfo.digest).diffID with
            | error e => simp [h4] at hok
            | ok d2 =>
              simp only [h4] at hok
              simp at hok
              rw [← hok.1.1]
              exact hbd
          | false =>
            simp only [hdn] at hok
            simp at hok
            rw [← hok.1.1]
            exact hbd

/-- A successful layer-loop body preserves the layer digest. -/
theorem copyLayersStep_ok_digest (ic : ImageCopierState) (w : World) (cache : Cache)
    (srcLayer : BlobInfo) (b : BlobInfo) (dg : Digest) (c : Cache) (ev : List Event)
    (hput : ∀ d j r, w.dest.putBlob d j = .ok r → r.digest = d)
    (hreap : ∀ i r, w.dest.reapplyBlob i = .ok r → r.digest = i.digest)
    (hok : copyLayersStep ic w cache srcLayer = (.ok (b, dg), c, ev)) :
    b.digest = srcLayer.digest := by
  unfold copyLayersStep at hok
  by_cases hf : (w.dest.acceptsForeignLayerURLs && !srcLayer.urls.isEmpty) = true
  · rw [if_pos hf] at hok
    cases hdn : ic.diffIDsAreNeeded with
    | true => rw [if_pos hdn] at hok; simp at hok
    | false =>
      rw [if_neg (by rw [hdn]; simp)] at hok
      simp at hok
      rw [← hok.1.1]
  · rw [if_neg hf] at hok
    exact copyLayer_ok_digest ic w cache srcLayer b dg c ev hput hreap hok

/-- A successful layer loop rewrites no digest: the destination infos carry
exactly the source digests in order. -/
theorem copyLayersLoop_ok_no_rewrite (ic : ImageCopierState) (w : World)
    (hput : ∀ d j r, w.dest.putBlob d j = .ok r → r.digest = d)
    (hreap : ∀ i r, w.dest.reapplyBlob i = .ok r → r.digest = i.digest) :
    ∀ (ls : List BlobInfo) (cache : Cache) (dis : List BlobInfo) (dgs : List Digest)
      (c : Cache) (ev : List Event),
      copyLayersLoop ic w ls cache = (.ok (dis, dgs), c, ev) →
      layerDigestsDiffer ls dis = false := by
  intro ls
  induction ls with
  | nil =>
    intro cache dis dgs c ev h
    unfold copyLayersLoop at h
    simp at h
    rw [h.1.1]
    decide
  | cons l rest ih =>
    intro cache dis dgs c ev h
    unfold copyLayersLoop at h
    rcases h1 : copyLayersStep ic w cache l with ⟨res1, c1, ev1⟩
    simp only [h1] at h
    cases res1 with
    | error e => simp at h
    | ok p =>
      obtain ⟨di, dgi⟩ := p
      rcases h2 : copyLayersLoop ic w rest c1 with ⟨res2, c2, ev2⟩
      simp only [h2] at h
      cases res2 with
      | error e => simp at h
      | ok q =>
        obtain ⟨dis2, dgs2⟩ := q
        simp at h
        have hd : di.digest = l.digest :=
          copyLayersStep_ok_digest ic w cache l di dgi c1 ev1 hput hreap h1
        have hrest : layerDigestsDiffer rest dis2 = false :=
          ih c1 dis2 dgs2 c2 ev2 (by rw [h2])
        rw [← h.1.1]
        simp only [layerDigestsDiffer, List.length_cons, List.zip_cons_cons,
          List.any_cons, Bool.or_eq_false_iff] at hrest ⊢
        obtain ⟨hlen, hany⟩ := hrest
        refine ⟨?_, ?_, hany⟩
        · simp only [bne_eq_false_iff_eq] at hlen ⊢
          omega
        · simp [hd]

/-- C1 (amended): the three components of byte-exact manifest preservation.
First, when the source's media type is supported by the destination (no forced
type), negotiation keeps the source type and records no conversion.  Second,
when the layer source list is not substituted and the destination preserves
digests on upload and reapply, a successful layer phase leaves the
manifest-modifying update fields untouched.  Third, committing with trivial
updates passes exactly the source manifest bytes to every `PutManifest` call
it makes, and returns them on success.  (The claim as stated is refuted by
`c1_preservation_counterexample`: a layer digest rewrite — e.g. on-the-fly
compression, permitted precisely because no signatures are present — makes the
stored manifest differ from the source bytes.) -/
theorem c1_manifest_preservation :
    (∀ (ic : ImageCopierState) (destSupported : List String),
      destSupported.contains ic.src.manifestType = true →
      ∃ rest, determineManifestConversion ic destSupported "" =
        .ok (ic.src.manifestType, rest, ic))
    ∧ (∀ (ic : ImageCopierState) (w : World) (cache : Cache),
      (∀ d j r, w.dest.putBlob d j = .ok r → r.digest = d) →
      (∀ i r, w.dest.reapplyBlob i = .ok r → r.digest = i.digest) →
      (ic.src.layerInfosForCopy = none ∨
        ic.src.layerInfosForCopy = some ic.src.layerInfos) →
      ∀ u c ev, copyLayers ic w cache = (.ok u, c, ev) →
        u.layerInfos = ic.manifestUpdates.layerInfos ∧
        u.embeddedDockerReference = ic.manifestUpdates.embeddedDockerReference ∧
        u.manifestMIMEType = ic.manifestUpdates.manifestMIMEType)
    ∧ (∀ (w : World) (ic : ImageCopierState) (ti : Option Digest),
      ic.manifestUpdates.onlyInformationOnly = true →
      (∀ b i, Event.putManifest b i ∈ (copyUpdatedConfigAndManifest w ic ti).2 →
        b = ic.src.manifestBytes)
      ∧ (∀ m, (copyUpdatedConfigAndManifest w ic ti).1 = .ok m →
        m = ic.src.manifestBytes)) := by
  refine ⟨?_, ?_, ?_⟩
  · intro ic destSupported hsup
    unfold determineManifestConversion
    rw [if_neg (by simp)]
    rw [if_neg (by
      intro hemp
      rw [List.isEmpty_iff] at hemp
      rw [hemp] at hsup
      simp at hsup)]
    rw [if_pos hsup]
    exact ⟨_, rfl⟩
  · intro ic w cache hput hreap hlifc u c ev hok
    unfold copyLayers at hok
    have hstep : ∀ (srcInfos : List BlobInfo),
        srcInfos = ic.src.layerInfos →
        (match copyLayersLoop ic w srcInfos cache with
          | (Except.error e, c2, ev2) =>
            ((Except.error e : Except Err ManifestUpdateOptions), c2, ev2)
          | (Except.ok (destInfos, diffIDs), c2, ev2) =>
            let u1 := { ic.manifestUpdates with infoLayerInfos := destInfos }
            let u2 := if ic.diffIDsAreNeeded then
                { u1 with infoLayerDiffIDs := diffIDs } else u1
            let u3 := if false || layerDigestsDiffer srcInfos destInfos then
                { u2 with layerInfos := some destInfos }
              else u2
            (Except.ok u3, c2, ev2)) = (.ok u, c, ev) →
        u.layerInfos = ic.manifestUpdates.layerInfos ∧
        u.embeddedDockerReference = ic.manifestUpdates.embeddedDockerReference ∧
        u.manifestMIMEType = ic.manifestUpdates.manifestMIMEType := by
      intro srcInfos hsrc hmatch
      rcases hloop : copyLayersLoop ic w srcInfos cache with ⟨res, c1, ev1⟩
      simp only [hloop] at hmatch
      cases res with
      | error e => simp at hmatch
      | ok q =>
        obtain ⟨dis, dgs⟩ := q
        have hnd : layerDigestsDiffer srcInfos dis = false :=
          copyLayersLoop_ok_no_rewrite ic w hput hreap srcInfos cache dis dgs c1 ev1
            (by rw [hloop])
        simp only [hnd, Bool.or_false, Bool.false_or] at hmatch
        cases hdn : ic.diffIDsAreNeeded with
        | true =>
          simp only [hdn] at hmatch
          simp at hmatch
          obtain ⟨hu, -, -⟩ := hmatch
          rw [← hu]
          exact ⟨rfl, rfl, rfl⟩
        | false =>
          simp only [hdn] at hmatch
          simp at hmatch
          obtain ⟨hu, -, -⟩ := hmatch
          rw [← hu]
          exact ⟨rfl, rfl, rfl⟩
    rcases hlifc with hl | hl
    · simp only [hl] at hok
      exact hstep ic.src.layerInfos rfl hok
    · simp only [hl] at hok
      rw [if_neg (by simp)] at hok
      exact hstep ic.src.layerInfos rfl hok
  · intro w ic ti htriv
    have hp : pendingImageFor ic = .ok ic.src.pending := by
      unfold pendingImageFor
      rw [htriv]
      simp
    have hman : (ic.src.pending).manifest = .ok ic.src.manifestBytes := rfl
    constructor
    · intro b i hmem
      unfold copyUpdatedConfigAndManifest at hmem
      simp only [hp, hman] at hmem
      rcases hcc : copyConfig w ic.src.pending with ⟨cfgRes, ev1⟩
      have h3 : (copyConfig w ic.src.pending).2 = ev1 := by rw [hcc]
      have hcfg : ∀ x ∈ ev1, blobLevelEvent x := by
        intro x hx
        exact copyConfig_blob_events w ic.src.pending x (h3.symm ▸ hx)
      simp only [hcc] at hmem
      have hnotput : Event.putManifest b i ∈ ev1 → False := by
        intro hx
        have := (hcfg _ hx).1
        simp [Event.isPutManifest] at this
      cases cfgRes with
      | some e => exact absurd hmem hnotput
      | none =>
        cases ti with
        | none =>
          cases hput2 : w.dest.putManifest ic.src.manifestBytes none with
          | error e =>
            simp only [hput2] at hmem
            simp at hmem
            rcases hmem with hmem | hmem
            · exact absurd hmem hnotput
            · exact hmem.1
          | ok v =>
            simp only [hput2] at hmem
            simp at hmem
            rcases hmem with hmem | hmem
            · exact absurd hmem hnotput
            · exact hmem.1
        | some d =>
          cases hmd : w.manifestDigest ic.src.manifestBytes with
          | error e =>
            simp only [hmd] at hmem
            exact absurd hmem hnotput
          | ok td =>
            simp only [hmd] at hmem
            cases hput2 : w.dest.putManifest ic.src.manifestBytes (some td) with
            | error e =>
              simp only [hput2] at hmem
              simp at hmem
              rcases hmem with hmem | hmem
              · exact absurd hmem hnotput
              · exact hmem.1
            | ok v =>
              simp only [hput2] at hmem
              simp at hmem
              rcases hmem with hmem | hmem
              · exact absurd hmem hnotput
              · exact hmem.1
    · intro m hok
      unfold copyUpdatedConfigAndManifest at hok
      simp only [hp, hman] at hok
      rcases hcc : copyConfig w ic.src.pending with ⟨cfgRes, ev1⟩
      simp only [hcc] at hok
      cases cfgRes with
      | some e => simp at hok
      | none =>
        cases ti with
        | none =>
          cases hput2 : w.dest.putManifest ic.src.manifestBytes none with
          | error e => simp [hput2] at hok
          | ok v =>
            simp [hput2] at hok
            exact hok.symm
        | some d =>
          cases hmd : w.manifestDigest ic.src.manifestBytes with
          | error e => simp [hmd] at hok
          | ok td =>
            simp only [hmd] at hok
            cases hput2 : w.dest.putManifest ic.src.manifestBytes (some td) with
            | error e => simp [hput2] at hok
            | ok v =>
              simp [hput2] at hok
              exact hok.symm

/-- Copier state for the C1 witness of the negotiation part. -/
def c1icA : ImageCopierState :=
  ⟨ManifestUpdateOptions.empty, { dummySrc with manifestType := ociImageManifestMediaType },
   false, true⟩

/-- Copier state for the C1 witness of the layer and commit parts. -/
def c1icB : ImageCopierState := ⟨ManifestUpdateOptions.empty, dummySrc, false, true⟩

/-- Witness for C1 (amended): the three parts instantiated concretely — a
supported source type negotiated without conversion, a digest-preserving layer
phase leaving the updates trivial, and a trivial-updates commit storing the
source bytes. -/
theorem c1_manifest_preservation_witness :
    (∃ rest, determineManifestConversion c1icA [ociImageManifestMediaType] "" =
      .ok (c1icA.src.manifestType, rest, c1icA))
    ∧ (∀ u c ev, copyLayers c1icB dummyWorld emptyCache = (.ok u, c, ev) →
        u.layerInfos = c1icB.manifestUpdates.layerInfos ∧
        u.embeddedDockerReference = c1icB.manifestUpdates.embeddedDockerReference ∧
        u.manifestMIMEType = c1icB.manifestUpdates.manifestMIMEType)
    ∧ ((∀ b i, Event.putManifest b i ∈
          (copyUpdatedConfigAndManifest dummyWorld c1icB none).2 →
        b = c1icB.src.manifestBytes)
      ∧ (∀ m, (copyUpdatedConfigAndManifest dummyWorld c1icB none).1 = .ok m →
        m = c1icB.src.manifestBytes)) :=
  ⟨c1_manifest_preservation.1 c1icA [ociImageManifestMediaType] rfl,
   c1_manifest_preservation.2.1 c1icB dummyWorld emptyCache
     (by intro d j r h; simp [dummyWorld, dummyDest] at h)
     (by intro i r h; simp [dummyWorld, dummyDest] at h; rw [h])
     (Or.inl rfl),
   c1_manifest_preservation.2.2 dummyWorld c1icB none rfl⟩

/-- Source image for the C1 counterexample: one layer, an OCI manifest, no
signatures; reserializing under updated layer infos yields different bytes. -/
def c1src : SrcImage :=
  { dummySrc with
    manifestBytes := [1, 2, 3]
    manifestType := ociImageManifestMediaType
    layerInfos := [⟨"sha256:aaa", 5, [], ""⟩]
    updatedImage := fun _ => .ok ⟨.ok [9, 9], ⟨"", 0, [], ""⟩, .ok []⟩ }

/-- Destination for the C1 counterexample: supports the source type, wants
compressed layers, and stores the compressed blob under a new digest. -/
def c1dest : DestWorld :=
  { dummyDest with
    supportedManifestMIMETypes := [ociImageManifestMediaType]
    shouldCompressLayers := true
    putBlob := fun _ _ => .ok ⟨"sha256:bbb", 5, [], ""⟩ }

/-- World for the C1 counterexample. -/
def c1world : World := { dummyWorld with dest := c1dest }

/-- Unparsed image for the C1 counterexample. -/
def c1unparsed : UnparsedImage :=
  ⟨.error (.errorMsg "unused"), .ok false, (true, none), .ok c1src⟩

/-- Options for the C1 counterexample: keep signatures, no forced type. -/
def c1opts : Options := ⟨false, "", none, none, ""⟩

/-- C1 counterexample: the source media type is supported, there are no
signatures and no embedded-reference conflict, yet the one manifest passed to
`PutManifest` is not byte-equal to the source manifest: on-the-fly compression
changed the layer digest, so the rewritten manifest was stored instead. -/
theorem c1_preservation_counterexample :
    c1world.dest.supportedManifestMIMETypes.contains c1src.manifestType = true
    ∧ c1opts.removeSignatures = false
    ∧ c1src.signatures = .ok []
    ∧ c1world.dest.dockerReference = none
    ∧ c1opts.forceManifestMIMEType = ""
    ∧ (copyOneImage c1world c1opts c1unparsed none emptyCache).1 =
        .ok ([9, 9], ociImageManifestMediaType)
    ∧ ((copyOneImage c1world c1opts c1unparsed none emptyCache).2.2.filter
        Event.isPutManifest) = [Event.putManifest [9, 9] none]
    ∧ c1src.manifestBytes = [1, 2, 3]
    ∧ ([9, 9] : Bytes) ≠ [1, 2, 3] :=
  ⟨rfl, rfl, rfl, rfl, rfl, rfl, rfl, rfl, by decide⟩

/-! ## Claim C4 -/

/-- The fallback iteration stores no top-level manifest unless the target
instance is nil. -/
theorem tryOtherCandidates_top_put (w : World) (ic : ImageCopierState) (ti : Option Digest) :
    ∀ (cands errs : List String), ∀ ev ∈ (tryOtherCandidates w ic ti cands errs).2,
      ti = none ∨ ev.isTopLevelManifestPut = false := by
  intro cands
  induction cands with
  | nil => intro errs ev hev; simp [tryOtherCandidates] at hev
  | cons t rest ih =>
    intro errs ev hev
    unfold tryOtherCandidates at hev
    rcases hc : copyUpdatedConfigAndManifest w
        { ic with manifestUpdates := { ic.manifestUpdates with manifestMIMEType := t } } ti
      with ⟨res, evA⟩
    have hA : ∀ x ∈ evA, ti = none ∨ x.isTopLevelManifestPut = false := by
      intro x hx
      have h2 : (copyUpdatedConfigAndManifest w
          { ic with manifestUpdates := { ic.manifestUpdates with manifestMIMEType := t } }
          ti).2 = evA := by rw [hc]
      exact (copyUpdatedConfigAndManifest_events w _ ti x (h2.symm ▸ hx)).2
    simp only [hc] at hev
    cases res with
    | ok man =>
      simp at hev
      rcases hev with rfl | hev
      · exact Or.inr rfl
      · exact hA ev hev
    | error e =>
      simp at hev
      rcases hev with rfl | hev | hev
      · exact Or.inr rfl
      · exact hA ev hev
      · exact ih _ ev hev

/-- The manifest commit retry loop stores no top-level manifest unless the
target instance is nil. -/
theorem commitManifest_top_put (w : World) (ic : ImageCopierState) (ti : Option Digest)
    (preferred : String) (others : List String) :
    ∀ ev ∈ (commitManifest w ic ti preferred others).2,
      ti = none ∨ ev.isTopLevelManifestPut = false := by
  intro ev hev
  unfold commitManifest at hev
  rcases hc : copyUpdatedConfigAndManifest w ic ti with ⟨res, evA⟩
  have hA : ∀ x ∈ evA, ti = none ∨ x.isTopLevelManifestPut = false := by
    intro x hx
    have h2 : (copyUpdatedConfigAndManifest w ic ti).2 = evA := by rw [hc]
    exact (copyUpdatedConfigAndManifest_events w ic ti x (h2.symm ▸ hx)).2
  simp only [hc] at hev
  cases res with
  | ok man =>
    simp at hev
    rcases hev with rfl | hev
    · exact Or.inr rfl
    · exact hA ev hev
  | error err =>
    dsimp only at hev
    by_cases h1 : (!(Err.isManifestRejected (Err.cause err)) || others.isEmpty) = true
    · rw [if_pos h1] at hev
      simp at hev
      rcases hev with rfl | hev
      · exact Or.inr rfl
      · exact hA ev hev
    · rw [if_neg h1] at hev
      cases hcm : ic.canModifyManifest with
      | false =>
        simp only [hcm] at hev
        simp at hev
        rcases hev with rfl | hev
        · exact Or.inr rfl
        · exact hA ev hev
      | true =>
        simp only [hcm] at hev
        simp only [Bool.not_true, Bool.false_eq_true, reduceIte] at hev
        simp at hev
        rcases hev with rfl | hev | hev
        · exact Or.inr rfl
        · exact hA ev hev
        · exact tryOtherCandidates_top_put w ic ti others _ ev hev

theorem copyLayers_blob_eventsEq (ic : ImageCopierState) (w : World) (cache : Cache)
    (r : Except Err ManifestUpdateOptions × Cache × List Event)
    (heq : copyLayers ic w cache = r) : ∀ ev ∈ r.2.2, blobLevelEvent ev :=
  heq ▸ copyLayers_blob_events ic w cache

theorem commitManifest_top_putEq (w : World) (ic : ImageCopierState) (ti : Option Digest)
    (preferred : String) (others : List String)
    (r : Except Err (Bytes × String) × List Event)
    (heq : commitManifest w ic ti preferred others = r) :
    ∀ ev ∈ r.2, ti = none ∨ ev.isTopLevelManifestPut = false :=
  heq ▸ commitManifest_top_put w ic ti preferred others

/-- After the signature checks, every event emitted by the single-image
pipeline with a `some` target instance is either blob-level or a manifest put
recorded under that instance digest: none is a top-level manifest put. -/
theorem copyOneImageAfterChecks_top_put (w : World) (opts : Options) (src : SrcImage)
    (ti : Option Digest) (cache : Cache) (sigs : List Bytes) :
    ∀ ev ∈ (copyOneImageAfterChecks w opts src ti cache sigs).2.2,
      ti = none ∨ ev.isTopLevelManifestPut = false := by
  intro ev hev
  simp only [copyOneImageAfterChecks] at hev
  cases hue : updateEmbeddedDockerReference w
      { manifestUpdates := ManifestUpdateOptions.empty, src := src,
        diffIDsAreNeeded := false, canModifyManifest := sigs.length == 0 } with
  | error e => simp only [hue] at hev; simp at hev
  | ok ic1 =>
    simp only [hue] at hev
    cases hneg : determineManifestConversion ic1 w.dest.supportedManifestMIMETypes
        opts.forceManifestMIMEType with
    | error e => simp only [hneg] at hev; simp at hev
    | ok trip =>
      obtain ⟨preferred, others, ic2⟩ := trip
      simp only [hneg] at hev
      rcases hcl : copyLayers
          { ic2 with diffIDsAreNeeded := src.updatedImageNeedsLayerDiffIDs ic2.manifestUpdates }
          w cache with ⟨res, c, ev1⟩
      simp only [hcl] at hev
      cases res with
      | error e =>
        dsimp only at hev
        exact Or.inr ((copyLayers_blob_eventsEq _ w cache _ hcl ev hev).2.2)
      | ok updates2 =>
        dsimp only at hev
        rcases hcm : commitManifest w
            { manifestUpdates := updates2, src := ic2.src,
              diffIDsAreNeeded := src.updatedImageNeedsLayerDiffIDs ic2.manifestUpdates,
              canModifyManifest := ic2.canModifyManifest } ti preferred others with ⟨res2, ev2⟩
        simp only [hcm] at hev
        cases res2 with
        | error e =>
          dsimp only at hev
          simp only [List.mem_append] at hev
          rcases hev with h1 | h2
          · exact Or.inr ((copyLayers_blob_eventsEq _ w cache _ hcl ev h1).2.2)
          · exact commitManifest_top_putEq w _ ti _ _ _ hcm ev h2
        | ok mr =>
          obtain ⟨man, retType⟩ := mr
          dsimp only at hev
          cases hsign : ((if opts.signBy ≠ "" then
                   match w.createSignature man opts.signBy with
                   | .error e => .error e
                   | .ok newSig => .ok (sigs ++ [newSig])
                 else .ok sigs) : Except Err (List Bytes)) with
          | error e =>
            simp only [hsign] at hev
            simp only [List.mem_append] at hev
            rcases hev with h1 | h2
            · exact Or.inr ((copyLayers_blob_eventsEq _ w cache _ hcl ev h1).2.2)
            · exact commitManifest_top_putEq w _ ti _ _ _ hcm ev h2
          | ok sigs2 =>
            simp only [hsign] at hev
            cases hps : w.dest.putSignatures sigs2 ti with
            | some e =>
              simp only [hps] at hev
              simp only [List.mem_append, List.mem_singleton] at hev
              rcases hev with (h1 | h2) | h3
              · exact Or.inr ((copyLayers_blob_eventsEq _ w cache _ hcl ev h1).2.2)
              · exact commitManifest_top_putEq w _ ti _ _ _ hcm ev h2
              · subst h3; exact Or.inr rfl
            | none =>
              simp only [hps] at hev
              simp only [List.mem_append, List.mem_singleton] at hev
              rcases hev with (h1 | h2) | h3
              · exact Or.inr ((copyLayers_blob_eventsEq _ w cache _ hcl ev h1).2.2)
              · exact commitManifest_top_putEq w _ ti _ _ _ hcm ev h2
              · subst h3; exact Or.inr rfl

/-- A single-image copy with a `some` target instance never emits a top-level
manifest put: every stored manifest is recorded under that instance digest. -/
theorem copyOneImage_top_put (w : World) (opts : Options) (u : UnparsedImage)
    (ti : Option Digest) (cache : Cache) :
    ∀ ev ∈ (copyOneImage w opts u ti cache).2.2,
      ti = none ∨ ev.isTopLevelManifestPut = false := by
  intro ev hev
  simp only [copyOneImage] at hev
  cases h1 : u.isMultiImage with
  | error e => simp only [h1] at hev; simp at hev
  | ok b =>
    simp only [h1] at hev
    cases b with
    | true => simp at hev
    | false =>
      rcases hpol : u.policyAllowed with ⟨allowed, perr⟩
      simp only [hpol] at hev
      cases allowed with
      | false =>
        cases perr with
        | none => simp at hev
        | some e => simp at hev
      | true =>
        cases perr with
        | some e => simp at hev
        | none =>
          rw [if_neg (by decide)] at hev
          cases h3 : u.fromUnparsed with
          | error e => simp only [h3] at hev; simp at hev
          | ok src =>
            simp only [h3] at hev
            cases h4 : checkImageDestinationForCurrentRuntimeOS w opts.destinationCtx src with
            | some e => simp only [h4] at hev; simp at hev
            | none =>
              simp only [h4] at hev
              cases hrs : opts.removeSignatures with
              | true =>
                simp only [hrs, reduceIte] at hev
                rw [if_neg (by decide)] at hev
                exact copyOneImageAfterChecks_top_put w opts src ti cache [] ev hev
              | false =>
                simp only [hrs, Bool.false_eq_true, reduceIte] at hev
                cases h5 : src.signatures with
                | error e => simp only [h5] at hev; simp at hev
                | ok s =>
                  simp only [h5] at hev
                  by_cases hlen : s.length ≠ 0
                  · rw [if_pos hlen] at hev
                    cases h6 : w.dest.supportsSignatures with
                    | some e => simp only [h6] at hev; simp at hev
                    | none =>
                      simp only [h6] at hev
                      exact copyOneImageAfterChecks_top_put w opts src ti cache s ev hev
                  · rw [if_neg hlen] at hev
                    exact copyOneImageAfterChecks_top_put w opts src ti cache s ev hev

/-- The per-instance loop stores every instance manifest under its instance
digest: it never emits a top-level (instance-digest-free) manifest put. -/
theorem copyInstancesLoop_top_put (w : World) (opts : Options) :
    ∀ (instances : List ListInstance) (cache : Cache),
      ∀ ev ∈ (copyInstancesLoop w opts instances cache).2.2,
        ev.isTopLevelManifestPut = false := by
  intro instances
  induction instances with
  | nil => intro cache ev hev; simp [copyInstancesLoop] at hev
  | cons inst rest ih =>
    intro cache ev hev
    simp only [copyInstancesLoop] at hev
    rcases hco : copyOneImage w opts (w.unparsedInstance inst.digest) (some inst.digest) cache
      with ⟨res, c, ev0⟩
    simp only [hco] at hev
    have hone : ∀ x ∈ ev0, x.isTopLevelManifestPut = false := by
      intro x hx
      rcases copyOneImage_top_put w opts (w.unparsedInstance inst.digest) (some inst.digest)
          cache x (by rw [hco]; exact hx) with h | h
      · exact absurd h (by simp)
      · exact h
    cases res with
    | error e => dsimp only at hev; exact hone ev hev
    | ok pr =>
      obtain ⟨updatedManifest, updatedType⟩ := pr
      dsimp only at hev
      cases hmd : w.manifestDigest updatedManifest with
      | error e => simp only [hmd] at hev; exact hone ev hev
      | ok md =>
        simp only [hmd] at hev
        rcases hrec : copyInstancesLoop w opts rest c with ⟨res2, c2, ev2⟩
        simp only [hrec] at hev
        have hrest : ∀ x ∈ ev2, x.isTopLevelManifestPut = false := by
          intro x hx
          exact ih c x (by rw [hrec]; exact hx)
        cases res2 with
        | error e =>
          dsimp only at hev
          rcases List.mem_append.mp hev with h1 | h2
          · exact hone ev h1
          · exact hrest ev h2
        | ok updates =>
          dsimp only at hev
          rcases List.mem_append.mp hev with h1 | h2
          · exact hone ev h1
          · exact hrest ev h2

theorem length_beq_zero_false {α : Type} (l : List α) (h : l ≠ []) :
    (l.length == 0) = false := by
  cases l with
  | nil => exact absurd rfl h
  | cons a t => rfl

theorem updateEmbeddedDockerReference_ok_fields (w : World) (ic ic' : ImageCopierState)
    (h : updateEmbeddedDockerReference w ic = .ok ic') :
    ic'.src = ic.src ∧ ic'.canModifyManifest = ic.canModifyManifest := by
  unfold updateEmbeddedDockerReference at h
  cases hd : w.dest.dockerReference with
  | none =>
    simp only [hd, Except.ok.injEq] at h
    rw [← h]
    exact ⟨rfl, rfl⟩
  | some destRef =>
    simp only [hd] at h
    by_cases h1 : (!ic.src.embeddedRefConflicts destRef) = true
    · rw [if_pos h1] at h
      simp only [Except.ok.injEq] at h
      rw [← h]
      exact ⟨rfl, rfl⟩
    · rw [if_neg h1] at h
      by_cases h2 : (!ic.canModifyManifest) = true
      · rw [if_pos h2] at h
        exact absurd h (by simp)
      · rw [if_neg h2] at h
        simp only [Except.ok.injEq] at h
        rw [← h]
        exact ⟨rfl, rfl⟩

theorem updateEmbeddedDockerReference_conflict (w : World) (ic : ImageCopierState)
    (ref : String) (h1 : ic.canModifyManifest = false)
    (h2 : w.dest.dockerReference = some ref)
    (h3 : ic.src.embeddedRefConflicts ref = true) :
    updateEmbeddedDockerReference w ic =
      .error (.errorMsg ("Copying a schema1 image with an embedded Docker reference to " ++
        ref ++
        " would invalidate existing signatures. Explicitly enable signature removal to proceed anyway")) := by
  unfold updateEmbeddedDockerReference
  rw [h2]
  dsimp only
  rw [h3]
  rw [if_neg (by decide)]
  rw [h1]
  rw [if_pos (by decide)]

theorem determineManifestConversion_ok_fields (ic : ImageCopierState) (d : List String)
    (f : String) (p : String) (o : List String) (ic2 : ImageCopierState)
    (h : determineManifestConversion ic d f = .ok (p, o, ic2)) :
    ic2.canModifyManifest = ic.canModifyManifest ∧ ic2.src = ic.src := by
  unfold determineManifestConversion at h
  by_cases h1 : f ≠ ""
  · rw [if_pos h1] at h
    dsimp only at h
    by_cases h2 : f ≠ ic.src.manifestType
    · rw [if_pos h2] at h
      simp only [Except.ok.injEq, Prod.mk.injEq] at h
      rw [← h.2.2]
      exact ⟨rfl, rfl⟩
    · rw [if_neg h2] at h
      simp only [Except.ok.injEq, Prod.mk.injEq] at h
      rw [← h.2.2]
      exact ⟨rfl, rfl⟩
  · rw [if_neg h1] at h
    by_cases h2 : List.isEmpty d = true
    · rw [if_pos h2] at h
      simp only [Except.ok.injEq, Prod.mk.injEq] at h
      rw [← h.2.2]
      exact ⟨rfl, rfl⟩
    · rw [if_neg h2] at h
      dsimp only at h
      by_cases h3 : d.contains ic.src.manifestType = true
      · rw [if_pos h3] at h
        simp only [Except.ok.injEq, Prod.mk.injEq] at h
        rw [← h.2.2]
        exact ⟨rfl, rfl⟩
      · rw [if_neg h3] at h
        cases hr : [dockerV2Schema2MediaType, ociImageManifestMediaType,
            dockerV2Schema1SignedMediaType].filter (fun t => d.contains t) with
        | nil => rw [hr] at h; exact absurd h (by simp)
        | cons preferred rest =>
          rw [hr] at h
          dsimp only at h
          by_cases h4 : preferred ≠ ic.src.manifestType
          · rw [if_pos h4] at h
            simp only [Except.ok.injEq, Prod.mk.injEq] at h
            rw [← h.2.2]
            exact ⟨rfl, rfl⟩
          · rw [if_neg h4] at h
            simp only [Except.ok.injEq, Prod.mk.injEq] at h
            rw [← h.2.2]
            exact ⟨rfl, rfl⟩

theorem copyLayers_forbidden (ic : ImageCopierState) (w : World) (cache : Cache)
    (l : List BlobInfo) (h1 : ic.canModifyManifest = false)
    (h2 : ic.src.layerInfosForCopy = some l) (h3 : l ≠ ic.src.layerInfos) :
    copyLayers ic w cache = (.error (.errorMsg
      "Internal error: copyLayers() needs to use an updated manifest but that was known to be forbidden"),
      cache, []) := by
  unfold copyLayers
  rw [h2]
  dsimp only
  rw [if_pos h3, h1]
  rw [if_pos (by decide)]

theorem copyLayers_ok_mimeType (ic : ImageCopierState) (w : World) (cache : Cache)
    (u : ManifestUpdateOptions) (c : Cache) (ev : List Event)
    (h : copyLayers ic w cache = (.ok u, c, ev)) :
    u.manifestMIMEType = ic.manifestUpdates.manifestMIMEType ∧
      u.embeddedDockerReference = ic.manifestUpdates.embeddedDockerReference := by
  unfold copyLayers at h
  dsimp only at h
  cases hopt : ((match ic.src.layerInfosForCopy with
      | some l => if l ≠ ic.src.layerInfos then
          (if !ic.canModifyManifest then none else some (l, true))
        else some (ic.src.layerInfos, false)
      | none => some (ic.src.layerInfos, false)) : Option (List BlobInfo × Bool)) with
  | none => rw [hopt] at h; exact absurd h (by simp)
  | some pair =>
    obtain ⟨srcInfos, srcInfosUpdated⟩ := pair
    rw [hopt] at h
    dsimp only at h
    rcases hloop : copyLayersLoop ic w srcInfos cache with ⟨res, c2, ev2⟩
    rw [hloop] at h
    cases res with
    | error e => dsimp only at h; exact absurd h (by simp)
    | ok pr =>
      obtain ⟨destInfos, diffIDs⟩ := pr
      dsimp only at h
      simp only [Prod.mk.injEq, Except.ok.injEq] at h
      rw [← h.1]
      by_cases hdn : ic.diffIDsAreNeeded = true
      · rw [hdn]
        by_cases hup : (srcInfosUpdated || layerDigestsDiffer srcInfos destInfos) = true
        · rw [if_pos hup]; rw [if_pos rfl]; exact ⟨rfl, rfl⟩
        · rw [if_neg hup]; rw [if_pos rfl]; exact ⟨rfl, rfl⟩
      · rw [Bool.of_not_eq_true hdn]
        by_cases hup : (srcInfosUpdated || layerDigestsDiffer srcInfos destInfos) = true
        · rw [if_pos hup]; rw [if_neg (by decide)]; exact ⟨rfl, rfl⟩
        · rw [if_neg hup]; rw [if_neg (by decide)]; exact ⟨rfl, rfl⟩

theorem pendingImageFor_forbidden (ic : ImageCopierState)
    (h1 : ic.canModifyManifest = false)
    (h2 : ic.manifestUpdates.onlyInformationOnly = false) :
    pendingImageFor ic = .error (.errorMsg
      "Internal error: copy needs an updated manifest but that was known to be forbidden") := by
  unfold pendingImageFor
  rw [h2, h1]
  rw [if_pos (by decide), if_pos (by decide)]

theorem commitManifest_forbidden (w : World) (ic : ImageCopierState) (ti : Option Digest)
    (p : String) (o : List String) (h1 : ic.canModifyManifest = false)
    (h2 : ic.manifestUpdates.onlyInformationOnly = false) :
    commitManifest w ic ti p o = (.error (.errorMsg
      "Internal error: copy needs an updated manifest but that was known to be forbidden"),
      [Event.attemptManifest p]) := by
  unfold commitManifest copyUpdatedConfigAndManifest
  rw [pendingImageFor_forbidden ic h1 h2]
  rfl

theorem updateInstances_mimeType (l l2 : MList) (updates : List ListInstance)
    (h : MList.updateInstances l updates = .ok l2) : l2.mimeType = l.mimeType := by
  unfold MList.updateInstances at h
  by_cases h1 : updates.length ≠ l.instances.length
  · rw [if_pos h1] at h
    exact absurd h (by simp)
  · rw [if_neg h1] at h
    simp only [Except.ok.injEq] at h
    rw [← h]

/-- When the negotiated state records a manifest conversion
(`manifest_updates.manifest_media_type` set) while the manifest may not be
modified, the single-image pipeline fails and no manifest is ever stored. -/
theorem copyOneImageAfterChecks_conversion_forbidden (w : World) (opts : Options)
    (src : SrcImage) (ti : Option Digest) (cache : Cache) (sigs : List Bytes)
    (ic1 ic2 : ImageCopierState) (p : String) (others : List String)
    (hue : updateEmbeddedDockerReference w
      { manifestUpdates := ManifestUpdateOptions.empty, src := src,
        diffIDsAreNeeded := false, canModifyManifest := sigs.length == 0 } = .ok ic1)
    (hneg : determineManifestConversion ic1 w.dest.supportedManifestMIMETypes
      opts.forceManifestMIMEType = .ok (p, others, ic2))
    (hcm2 : ic2.canModifyManifest = false)
    (hmime : ic2.manifestUpdates.manifestMIMEType ≠ "") :
    (∃ e, (copyOneImageAfterChecks w opts src ti cache sigs).1 = .error e) ∧
      ∀ ev ∈ (copyOneImageAfterChecks w opts src ti cache sigs).2.2,
        ev.isPutManifest = false := by
  simp only [copyOneImageAfterChecks, hue, hneg]
  rcases hcl : copyLayers
      { ic2 with diffIDsAreNeeded := src.updatedImageNeedsLayerDiffIDs ic2.manifestUpdates }
      w cache with ⟨res, c, ev1⟩
  cases res with
  | error e =>
    refine ⟨⟨e, rfl⟩, ?_⟩
    intro ev hev
    exact (copyLayers_blob_eventsEq _ w cache _ hcl ev hev).1
  | ok updates2 =>
    have hmime2 := copyLayers_ok_mimeType _ w cache updates2 c ev1 hcl
    have honly : updates2.onlyInformationOnly = false := by
      have hne : updates2.manifestMIMEType ≠ "" := by
        rw [hmime2.1]
        exact hmime
      simp [ManifestUpdateOptions.onlyInformationOnly, hne]
    have hforb := commitManifest_forbidden w
      { manifestUpdates := updates2, src := ic2.src,
        diffIDsAreNeeded := src.updatedImageNeedsLayerDiffIDs ic2.manifestUpdates,
        canModifyManifest := ic2.canModifyManifest } ti p others hcm2 honly
    simp only [hforb]
    refine ⟨⟨_, rfl⟩, ?_⟩
    intro ev hev
    rcases List.mem_append.mp hev with h1 | h2
    · exact (copyLayers_blob_eventsEq _ w cache _ hcl ev h1).1
    · rw [List.mem_singleton.mp h2]
      rfl

/-- C4: when signatures are retained (`remove_signatures` false and at least
one signature carried, so `can_modify_manifest` is false), each modification
the copy would require is refused before the affected manifest is stored:
an embedded-Docker-reference rewrite and a `LayerInfosForCopy` layer rewrite
fail with an empty event trace, a required manifest conversion fails with no
manifest stored at all, and a required manifest-list conversion fails before
the manifest list itself is stored (no instance-digest-free manifest put ever
occurs) — though instance manifests may already have been stored, which is
where the claim's unqualified "before any manifest is stored" fails. -/
theorem c4_signature_gates :
    (∀ (w : World) (opts : Options) (src : SrcImage) (ti : Option Digest) (cache : Cache)
       (sigs : List Bytes) (ref : String),
       sigs ≠ [] → w.dest.dockerReference = some ref →
       src.embeddedRefConflicts ref = true →
       copyOneImageAfterChecks w opts src ti cache sigs =
         (.error (.errorMsg ("Copying a schema1 image with an embedded Docker reference to " ++
           ref ++
           " would invalidate existing signatures. Explicitly enable signature removal to proceed anyway")),
          cache, [])) ∧
    (∀ (w : World) (opts : Options) (src : SrcImage) (ti : Option Digest) (cache : Cache)
       (sigs : List Bytes) (l : List BlobInfo),
       sigs ≠ [] → src.layerInfosForCopy = some l → l ≠ src.layerInfos →
       (∃ e, (copyOneImageAfterChecks w opts src ti cache sigs).1 = .error e) ∧
         (copyOneImageAfterChecks w opts src ti cache sigs).2.2 = []) ∧
    (∀ (w : World) (opts : Options) (src : SrcImage) (ti : Option Digest) (cache : Cache)
       (sigs : List Bytes),
       sigs ≠ [] → opts.forceManifestMIMEType = "" →
       w.dest.supportedManifestMIMETypes ≠ [] →
       w.dest.supportedManifestMIMETypes.contains src.manifestType = false →
       (∃ e, (copyOneImageAfterChecks w opts src ti cache sigs).1 = .error e) ∧
         ∀ ev ∈ (copyOneImageAfterChecks w opts src ti cache sigs).2.2,
           ev.isPutManifest = false) ∧
    (∀ (w : World) (opts : Options) (u : UnparsedImage) (cache : Cache)
       (mlb : Bytes) (mt : String) (list : MList) (sl : List Bytes) (sel : String),
       u.manifest = .ok (mlb, mt) → w.listFromBlob mlb mt = .ok list →
       opts.removeSignatures = false → w.sourceListSignatures = .ok sl → sl ≠ [] →
       determineListConversion mt w.dest.supportedManifestMIMETypes "" = .ok sel →
       sel ≠ list.mimeType →
       (∃ e, (copyMultipleImages w opts u cache).1 = some e) ∧
         ∀ ev ∈ (copyMultipleImages w opts u cache).2.2,
           ev.isTopLevelManifestPut = false) := by
  refine ⟨?_, ?_, ?_, ?_⟩
  · -- embedded-reference rewrite
    intro w opts src ti cache sigs ref hsig hd hconf
    have hs0 : (sigs.length == 0) = false := length_beq_zero_false sigs hsig
    have hue := updateEmbeddedDockerReference_conflict w
      { manifestUpdates := ManifestUpdateOptions.empty, src := src,
        diffIDsAreNeeded := false, canModifyManifest := sigs.length == 0 } ref hs0 hd hconf
    simp only [copyOneImageAfterChecks]
    rw [hue]
  · -- layer rewrite demanded by LayerInfosForCopy
    intro w opts src ti cache sigs l hsig hlic hne
    have hs0 : (sigs.length == 0) = false := length_beq_zero_false sigs hsig
    simp only [copyOneImageAfterChecks]
    cases hue : updateEmbeddedDockerReference w
        { manifestUpdates := ManifestUpdateOptions.empty, src := src,
          diffIDsAreNeeded := false, canModifyManifest := sigs.length == 0 } with
    | error e => exact ⟨⟨e, rfl⟩, rfl⟩
    | ok ic1 =>
      dsimp only
      obtain ⟨hsrc1, hcm1⟩ := updateEmbeddedDockerReference_ok_fields w _ ic1 hue
      cases hneg : determineManifestConversion ic1 w.dest.supportedManifestMIMETypes
          opts.forceManifestMIMEType with
      | error e => exact ⟨⟨e, rfl⟩, rfl⟩
      | ok trip =>
        obtain ⟨p, o, ic2⟩ := trip
        obtain ⟨hcm2, hsrc2⟩ := determineManifestConversion_ok_fields ic1 _ _ p o ic2 hneg
        have hcm : ic2.canModifyManifest = false := by
          rw [hcm2, hcm1]
          exact hs0
        have hsrc : ic2.src = src := by rw [hsrc2, hsrc1]
        have h2 : ic2.src.layerInfosForCopy = some l := by rw [hsrc]; exact hlic
        have h3 : l ≠ ic2.src.layerInfos := by rw [hsrc]; exact hne
        have hcl := copyLayers_forbidden
          { ic2 with diffIDsAreNeeded := src.updatedImageNeedsLayerDiffIDs ic2.manifestUpdates }
          w cache l hcm h2 h3
        dsimp only
        rw [hcl]
        exact ⟨⟨_, rfl⟩, rfl⟩
  · -- required manifest conversion
    intro w opts src ti cache sigs hsig hforce hnonempty hns
    have hs0 : (sigs.length == 0) = false := length_beq_zero_false sigs hsig
    cases hue : updateEmbeddedDockerReference w
        { manifestUpdates := ManifestUpdateOptions.empty, src := src,
          diffIDsAreNeeded := false, canModifyManifest := sigs.length == 0 } with
    | error e =>
      have hr : copyOneImageAfterChecks w opts src ti cache sigs = (.error e, cache, []) := by
        simp only [copyOneImageAfterChecks]
        rw [hue]
      rw [hr]
      exact ⟨⟨e, rfl⟩, by intro ev hev; simp at hev⟩
    | ok ic1 =>
      have hsrc1 : ic1.src = src := (updateEmbeddedDockerReference_ok_fields w _ ic1 hue).1
      have hcm1 : ic1.canModifyManifest = false := by
        rw [(updateEmbeddedDockerReference_ok_fields w _ ic1 hue).2]
        exact hs0
      cases hrank : [dockerV2Schema2MediaType, ociImageManifestMediaType,
          dockerV2Schema1SignedMediaType].filter
          (fun t => w.dest.supportedManifestMIMETypes.contains t) with
      | nil =>
        have hneg : determineManifestConversion ic1 w.dest.supportedManifestMIMETypes
            opts.forceManifestMIMEType = .error (.errorMsg
            "Could not determine a manifest MIME type supported by the destination") := by
          rw [hforce]
          unfold determineManifestConversion
          dsimp only
          rw [if_neg (by simp)]
          rw [if_neg (by simp only [List.isEmpty_iff]; exact hnonempty)]
          rw [hsrc1]
          rw [if_neg (by rw [hns]; decide)]
          rw [hrank]
        have hr : copyOneImageAfterChecks w opts src ti cache sigs =
            (.error (.errorMsg
              "Could not determine a manifest MIME type supported by the destination"),
             cache, []) := by
          simp only [copyOneImageAfterChecks]
          rw [hue]
          dsimp only
          rw [hneg]
        rw [hr]
        exact ⟨⟨_, rfl⟩, by intro ev hev; simp at hev⟩
      | cons p rest =>
        have hpmem : p ∈ [dockerV2Schema2MediaType, ociImageManifestMediaType,
            dockerV2Schema1SignedMediaType].filter
            (fun t => w.dest.supportedManifestMIMETypes.contains t) := by
          rw [hrank]
          exact List.mem_cons_self p rest
        have hpc := (List.mem_filter.mp hpmem).2
        have hpr := (List.mem_filter.mp hpmem).1
        have hp : p ≠ src.manifestType := by
          intro hcontra
          rw [hcontra, hns] at hpc
          exact absurd hpc (by decide)
        have hpne : p ≠ "" := by
          simp only [List.mem_cons, List.not_mem_nil, or_false] at hpr
          rcases hpr with rfl | rfl | rfl
          · decide
          · decide
          · decide
        have hneg : determineManifestConversion ic1 w.dest.supportedManifestMIMETypes
            opts.forceManifestMIMEType = .ok (p, rest,
              { ic1 with manifestUpdates :=
                { ic1.manifestUpdates with manifestMIMEType := p } }) := by
          rw [hforce]
          unfold determineManifestConversion
          dsimp only
          rw [if_neg (by simp)]
          rw [if_neg (by simp only [List.isEmpty_iff]; exact hnonempty)]
          rw [hsrc1]
          rw [if_neg (by rw [hns]; decide)]
          rw [hrank]
          dsimp only
          rw [if_pos hp]
        exact copyOneImageAfterChecks_conversion_forbidden w opts src ti cache sigs ic1 _
          p rest hue hneg hcm1 hpne
  · -- required manifest-list conversion
    intro w opts u cache mlb mt list sl sel hman hlfb hrs hsls hsl hdlc hselne
    have hlen : sl.length ≠ 0 := fun h => hsl (List.length_eq_zero.mp h)
    simp only [copyMultipleImages]
    rw [hman]
    dsimp only
    rw [hlfb]
    dsimp only
    rw [hrs]
    rw [if_neg (by decide)]
    rw [hsls]
    dsimp only
    rw [if_pos hlen]
    cases hss : w.dest.supportsSignatures with
    | some e =>
      exact ⟨⟨_, rfl⟩, by intro ev hev; simp at hev⟩
    | none =>
      dsimp only
      rcases hloop : copyInstancesLoop w opts list.instances cache with ⟨res, c, ev⟩
      have hevtop : ∀ x ∈ ev, x.isTopLevelManifestPut = false := by
        intro x hx
        exact copyInstancesLoop_top_put w opts list.instances cache x (by rw [hloop]; exact hx)
      cases res with
      | error e => exact ⟨⟨e, rfl⟩, fun x hx => hevtop x hx⟩
      | ok updates =>
        dsimp only
        cases hui : MList.updateInstances list updates with
        | error e => exact ⟨⟨_, rfl⟩, fun x hx => hevtop x hx⟩
        | ok list2 =>
          have hmime2 := updateInstances_mimeType list list2 updates hui
          dsimp only
          rw [hdlc]
          dsimp only
          rw [if_pos (show sel ≠ list2.mimeType by rw [hmime2]; exact hselne)]
          by_cases hd1 : sel = dockerV2ListMediaType
          · rw [if_pos hd1]
            dsimp only
            rw [if_pos rfl]
            rw [if_pos hlen]
            exact ⟨⟨_, rfl⟩, fun x hx => hevtop x hx⟩
          · rw [if_neg hd1]
            by_cases hd2 : sel = ociImageIndexMediaType
            · rw [if_pos hd2]
              dsimp only
              rw [if_pos rfl]
              rw [if_pos hlen]
              exact ⟨⟨_, rfl⟩, fun x hx => hevtop x hx⟩
            · rw [if_neg hd2]
              exact ⟨⟨_, rfl⟩, fun x hx => hevtop x hx⟩

/-- A manifest-list instance whose stored manifest keeps digest, size and type. -/
def c4inst : ListInstance := ⟨"sha256:aaa", 3, dockerV2Schema2MediaType⟩

/-- An OCI image index carrying the one instance. -/
def c4list : MList := ⟨[c4inst], ociImageIndexMediaType⟩

/-- The (unsigned, layerless, configless) instance image. -/
def c4instSrc : SrcImage :=
  { manifestBytes := [1, 2, 3]
    manifestType := dockerV2Schema2MediaType
    layerInfos := []
    layerInfosForCopy := none
    configInfo := ⟨"", 0, [], ""⟩
    configBlob := .ok []
    signatures := .ok []
    ociConfigOS := .ok "linux"
    embeddedRefConflicts := fun _ => false
    updatedImageNeedsLayerDiffIDs := fun _ => false
    updatedImage := fun _ => .error (.errorMsg "unused") }

/-- The unparsed handle of the instance image. -/
def c4unparsedInst : UnparsedImage :=
  { manifest := .ok ([1, 2, 3], dockerV2Schema2MediaType)
    isMultiImage := .ok false
    policyAllowed := (true, none)
    fromUnparsed := .ok c4instSrc }

/-- A destination accepting schema2 manifests and schema2 manifest lists (so
the OCI index must be converted) whose stores all succeed. -/
def c4dest : DestWorld :=
  { supportedManifestMIMETypes := [dockerV2Schema2MediaType, dockerV2ListMediaType]
    acceptsForeignLayerURLs := false
    shouldCompressLayers := false
    mustMatchRuntimeOS := false
    dockerReference := none
    hasBlob := fun _ => .ok (false, 0)
    reapplyBlob := fun i => .ok i
    putBlob := fun _ i => .ok i
    putManifest := fun _ _ => .ok ()
    supportsSignatures := none
    putSignatures := fun _ _ => none }

/-- The list-copy world: the source list carries one signature. -/
def c4world : World :=
  { dest := c4dest
    blob := fun _ => dummyBlobWorld
    digestSpecErrMsg := fun _ => none
    manifestDigest := fun _ => .ok "sha256:aaa"
    createSignature := fun _ _ => .error (.errorMsg "unused")
    goos := "linux"
    unparsedInstance := fun _ => c4unparsedInst
    sourceListSignatures := .ok [[7]]
    listFromBlob := fun _ _ => .ok c4list
    serializeList := fun _ => .ok [9] }

/-- The unparsed handle of the manifest list itself. -/
def c4unparsed : UnparsedImage :=
  { manifest := .ok ([0], ociImageIndexMediaType)
    isMultiImage := .ok true
    policyAllowed := (true, none)
    fromUnparsed := .error (.errorMsg "unused") }

/-- Signature-preserving options. -/
def c4opts : Options := ⟨false, "", none, none, ""⟩

/-- C4 counterexample: in this list copy the signatures are retained and a
manifest-list conversion (OCI index to schema2 list) is required, so the copy
fails — but only after the instance manifest has already been stored at the
destination, refuting "the copy fails before any manifest is stored". -/
theorem c4_list_counterexample :
    c4opts.removeSignatures = false ∧
    c4world.sourceListSignatures = .ok [[7]] ∧
    determineListConversion c4list.mimeType c4world.dest.supportedManifestMIMETypes "" =
      .ok dockerV2ListMediaType ∧
    dockerV2ListMediaType ≠ c4list.mimeType ∧
    (copyMultipleImages c4world c4opts c4unparsed emptyCache).1 =
      some (.errorMsg
        "Internal error: copyMultipleImages() needs to use an updated manifest but that was known to be forbidden") ∧
    ((copyMultipleImages c4world c4opts c4unparsed emptyCache).2.2.any
      (fun ev => ev.isPutManifest)) = true := by
  refine ⟨rfl, rfl, rfl, by decide, rfl, rfl⟩

/-- A source image with an embedded Docker reference conflicting with every
destination reference. -/
def c4srcA : SrcImage := { c4instSrc with embeddedRefConflicts := fun _ => true }

/-- A destination that records a Docker reference. -/
def c4destA : DestWorld := { c4dest with dockerReference := some "example.com/repo" }

/-- The world of the embedded-reference witness. -/
def c4worldA : World := { c4world with dest := c4destA }

/-- A source image whose `LayerInfosForCopy` substitutes the layer list. -/
def c4srcB : SrcImage :=
  { c4instSrc with layerInfosForCopy := some [⟨"sha256:l1", 1, [], ""⟩] }

/-- A source image whose manifest type the destination does not support. -/
def c4srcC : SrcImage := { c4instSrc with manifestType := ociImageManifestMediaType }

/-- C4 witness: the four signature gates on concrete worlds — an
embedded-reference conflict, a layer-list substitution, an unsupported
manifest type and a required list conversion, each with one retained
signature. -/
theorem c4_signature_gates_witness :
    (([[1]] : List Bytes) ≠ [] ∧
      copyOneImageAfterChecks c4worldA c4opts c4srcA none emptyCache [[1]] =
        (.error (.errorMsg ("Copying a schema1 image with an embedded Docker reference to " ++
          "example.com/repo" ++
          " would invalidate existing signatures. Explicitly enable signature removal to proceed anyway")),
         emptyCache, [])) ∧
    ((∃ e, (copyOneImageAfterChecks c4world c4opts c4srcB none emptyCache [[1]]).1 = .error e) ∧
      (copyOneImageAfterChecks c4world c4opts c4srcB none emptyCache [[1]]).2.2 = []) ∧
    ((∃ e, (copyOneImageAfterChecks c4world c4opts c4srcC none emptyCache [[1]]).1 = .error e) ∧
      ∀ ev ∈ (copyOneImageAfterChecks c4world c4opts c4srcC none emptyCache [[1]]).2.2,
        ev.isPutManifest = false) ∧
    ((∃ e, (copyMultipleImages c4world c4opts c4unparsed emptyCache).1 = some e) ∧
      ∀ ev ∈ (copyMultipleImages c4world c4opts c4unparsed emptyCache).2.2,
        ev.isTopLevelManifestPut = false) := by
  refine ⟨⟨by decide, ?_⟩, ?_, ?_, ?_⟩
  · exact c4_signature_gates.1 c4worldA c4opts c4srcA none emptyCache [[1]]
      "example.com/repo" (by decide) rfl rfl
  · exact c4_signature_gates.2.1 c4world c4opts c4srcB none emptyCache [[1]]
      [⟨"sha256:l1", 1, [], ""⟩] (by decide) rfl (by decide)
  · exact c4_signature_gates.2.2.1 c4world c4opts c4srcC none emptyCache [[1]]
      (by decide) rfl (by decide) (by decide)
  · exact c4_signature_gates.2.2.2 c4world c4opts c4unparsed emptyCache [0]
      ociImageIndexMediaType c4list [[7]] dockerV2ListMediaType rfl rfl rfl rfl
      (by decide) rfl (by decide)

end ImageCopy
